import Mathlib

/-!
The document collaboration hub of `docs.go`.

A shallow embedding of the websocket hub (`handleWebSocket`, `sendDocumentData`,
`readLoop`, `updateDocument`, `updateCellData`, `updateSelction`, `writeLoop`,
`offline`, `saveDocument`) and theorems about it.

Go values that are references are modelled as addresses (natural numbers) into an
explicit store:

* the cell grid `ObjectMatrixPrimitiveType[interface{}]` of a sheet is a map object whose
  values are themselves map objects (the rows), so a sheet holds the address of its grid
  and a grid holds the addresses of its rows; a `nil` map is `none`;
* `doc.Clients` maps a client id to a `*wsConnection`, the address of a connection record.

Struct values (`IWorkbookConfig`, `IWorksheetConfig`, `ISheetActionData`) are copied on
assignment, exactly as in Go; the addresses inside a copy still name the same map objects.

A Go map is an association list without duplicate keys; `range` visits the entries in the
order of the list. Go leaves that order unspecified, and every order is the entry list of
some value of the type, so a statement about every map covers every iteration order.

A function that can panic (an assignment to an entry of a `nil` map, the `panic` of
`saveDocument`) returns an `Option`, `none` being the panic. `Revision` is an `int64`: the
increment wraps around.

What the hub hands to its collaborators is recorded as an event: a `WriteJSON` on a
connection's socket, and a call of `saveDocument`. The outcomes the collaborators report
back (a failed socket write, a failed database update, the result of `json.Unmarshal`)
are inputs of the functions that consult them.

Each function is the sequential code between its entry and its return, run with no other
goroutine in between. Where the code releases `doc.Mutex` on the way (the data branch and
the teardown of `readLoop`, `sendDocumentData`), the parts between the lock operations are
defined as well, and `Act` is the relation whose steps are these parts: the goroutines of a
session interleave at that grain.
-/

namespace Docs

/-! ## Data model -/

/-- A Go `map[string]V` (a `nil` map where the code only reads or ranges is the empty map). -/
abbrev GoMap (V : Type) := AList (fun _ : String => V)

/-- A JSON value decoded into a Go `interface{}`. The hub stores and copies such values and
never inspects them; numbers keep their literal, arrays and objects their JSON text. -/
inductive Iface where
  | null
  | bool (b : Bool)
  | number (literal : String)
  | string (s : String)
  | composite (json : String)
  deriving DecidableEq, Repr

/-- The type `ISelection`. -/
structure ISelection where
  StartX : Int
  StartY : Int
  EndX : Int
  EndY : Int
  StartRow : Int
  StartColumn : Int
  EndRow : Int
  EndColumn : Int
  deriving DecidableEq, Repr

/-- The type `ICellInfo`. -/
structure ICellInfo where
  StartX : Int
  StartY : Int
  EndX : Int
  EndY : Int
  Row : Int
  Column : Int
  IsMerged : Bool
  IsMergedMainCell : Bool
  MergeInfo : ISelection
  deriving DecidableEq, Repr

/-- The type `ISelectionModelValue`. -/
structure ISelectionModelValue where
  Selection : ISelection
  Cell : ICellInfo
  deriving DecidableEq, Repr

/-- The type `ISheetActionData` with its embedded `IActionData` (`ActionName`, `Operation`),
`ISetRangeDataActionData` (`CellValue`) and `ISetSelectionValueActionData` (`Selections`).
A decoded `CellValue` is only ever ranged over, so it is held by value. -/
structure ISheetActionData where
  ActionName : String
  Operation : Int
  CellValue : GoMap (GoMap Iface)
  Selections : List ISelectionModelValue
  SheetId : String
  deriving DecidableEq

/-- The zero value of `ISheetActionData`. -/
def ISheetActionData.zero : ISheetActionData :=
  { ActionName := "", Operation := 0, CellValue := ∅, Selections := [], SheetId := "" }

/-- The type `MessageConfigType`: the action envelope a data payload is parsed into. -/
structure MessageConfigType where
  UniverId : String
  ActionData : ISheetActionData
  deriving DecidableEq

/-- The zero value of `MessageConfigType`. -/
def MessageConfigType.zero : MessageConfigType :=
  { UniverId := "", ActionData := ISheetActionData.zero }

/-- The type `IWorksheetConfig` (`Type_` is the field `Type`). `CellData` is the reference
to the sheet's grid object (`none` is the `nil` map). Of the remaining fields, which the hub neither reads nor writes,
the scalar ones below are kept. -/
structure IWorksheetConfig where
  Type_ : Int
  Id : String
  Name : String
  TabColor : String
  Hidden : Int
  RowCount : Int
  ColumnCount : Int
  Status : Int
  CellData : Option Nat
  deriving DecidableEq, Repr

/-- The zero value of `IWorksheetConfig`, which indexing `Sheets` with a missing key yields. -/
def IWorksheetConfig.zero : IWorksheetConfig :=
  { Type_ := 0, Id := "", Name := "", TabColor := "", Hidden := 0, RowCount := 0,
    ColumnCount := 0, Status := 0, CellData := none }

/-- The type `IWorkbookConfig`. The hub reads `Sheets` and never assigns to it or to any
other field; of the other fields, which it does not read either, `ID`, `Name`, `Locale`,
`AppVersion` and `SheetOrder` are kept. -/
structure IWorkbookConfig where
  ID : String
  Name : String
  Locale : String
  AppVersion : String
  Sheets : GoMap IWorksheetConfig
  SheetOrder : List String
  deriving DecidableEq

/-- The zero value of `IWorkbookConfig`. -/
def IWorkbookConfig.zero : IWorkbookConfig :=
  { ID := "", Name := "", Locale := "", AppVersion := "", Sheets := ∅, SheetOrder := [] }

/-- The type `wsConnection`: the record a `*wsConnection` points to. Writes to `wsSocket`
are events; `CloseChan` and `SendChan` carry no data the hub inspects. -/
structure wsConnection where
  ClientName : String
  SelectionActionData : ISheetActionData
  deriving DecidableEq

/-- The type `Clients`: one roster entry. -/
structure Clients where
  ClientName : String
  ClientID : String
  SelectionActionData : ISheetActionData
  deriving DecidableEq

/-- The type `MessageType`: the wire envelope (`Type_` is the field `Type`). -/
structure MessageType where
  Type_ : String
  Revision : Int
  Data : String
  ClientName : String
  ClientID : String
  Clients : List Clients
  deriving DecidableEq

/-- The type `CollaborativeDocument` (the mutex has no content). -/
structure CollaborativeDocument where
  DocsId : String
  DocsConfig : IWorkbookConfig
  Clients : GoMap Nat
  Revision : Int
  Data : String
  deriving DecidableEq

/-- The map objects reachable from sheet configs: `grids[g]` is the object of a
`map[string]map[string]interface{}` reference `g` (its values are row references, `none`
for a `nil` row), `rows[r]` the object of a `map[string]interface{}` reference `r`. -/
structure Heap where
  grids : List (GoMap (Option Nat))
  rows : List (GoMap Iface)
  deriving DecidableEq

/-- A call the hub makes on a collaborator: a `WriteJSON` on the socket of the connection
record `conn`, or `saveDocument`, which marshals `doc.DocsConfig` (the struct and, through
it, the map objects as they are at that moment) and updates the database row of `docsId`. -/
inductive Event where
  | WriteJSON (conn : Nat) (message : MessageType)
  | saveDocument (docsId : String) (docsConfig : IWorkbookConfig) (heap : Heap)
  deriving DecidableEq

/-- The session as one value: the document, the map objects its config refers to, the
connection records, and the calls made so far. -/
structure State where
  doc : CollaborativeDocument
  heap : Heap
  conns : List wsConnection
  events : List Event
  deriving DecidableEq

/-! ## Machine integers -/

/-- The largest `int64`. -/
def maxInt64 : Int := 9223372036854775807

/-- The smallest `int64`. -/
def minInt64 : Int := -9223372036854775808

/-- The `int64` a mathematical integer is stored as (two's complement wrap-around). -/
def wrapInt64 (x : Int) : Int := (x + 9223372036854775808) % 18446744073709551616 - 9223372036854775808

/-! ## Map objects -/

/-- The read `m[row]` on a grid reference: a `nil` map and a missing key give `nil`. -/
def Heap.gridIndex (h : Heap) (m : Option Nat) (row : String) : Option Nat :=
  match m with
  | none => none
  | some g =>
    match h.grids[g]? with
    | none => none
    | some grid => (grid.lookup row).join

/-- The assignment `m[row] = r` on a grid reference; `none` is the runtime panic
"assignment to entry in nil map". -/
def Heap.gridAssign (h : Heap) (m : Option Nat) (row : String) (r : Option Nat) : Option Heap :=
  match m with
  | none => none
  | some g =>
    match h.grids[g]? with
    | none => none
    | some grid => some { h with grids := h.grids.set g (grid.insert row r) }

/-- The allocation `make(map[string]interface{})`: a new empty row object and its reference. -/
def Heap.makeRow (h : Heap) : Heap × Nat :=
  ({ h with rows := h.rows ++ [∅] }, h.rows.length)

/-- The read `m[column]` on a row reference. -/
def Heap.rowIndex (h : Heap) (m : Option Nat) (column : String) : Option Iface :=
  match m with
  | none => none
  | some r =>
    match h.rows[r]? with
    | none => none
    | some rowObj => rowObj.lookup column

/-- The assignment `m[column] = value` on a row reference; `none` is the runtime panic. -/
def Heap.rowAssign (h : Heap) (m : Option Nat) (column : String) (value : Iface) : Option Heap :=
  match m with
  | none => none
  | some r =>
    match h.rows[r]? with
    | none => none
    | some rowObj => some { h with rows := h.rows.set r (rowObj.insert column value) }

/-- The read `cellData[row][column]`; `none` when the row or the column key is absent. -/
def Heap.cellAt (h : Heap) (cellData : Option Nat) (row column : String) : Option Iface :=
  h.rowIndex (h.gridIndex cellData row) column

/-- The content of a row reference. -/
def Heap.rowView (h : Heap) (m : Option Nat) : Option (GoMap Iface) :=
  match m with
  | none => none
  | some r => h.rows[r]?

/-- What `json.Marshal` reads of a grid reference: `none` for a `nil` map, else for every
row key the row's cells (`none` for a `nil` row). -/
def Heap.gridView (h : Heap) (m : Option Nat) : Option (List (String × Option (GoMap Iface))) :=
  match m with
  | none => none
  | some g =>
    match h.grids[g]? with
    | none => none
    | some grid => some (grid.entries.map (fun e => (e.1, h.rowView e.2)))

/-! ## The operations of `docs.go` -/

/-- The body of the outer loop of `updateCellData` for one entry `row, rowData` of
`actionData.CellValue`: a `nil` row of the sheet's grid is replaced by a new map, then every
`column, value` of `rowData` is assigned with `sheet.CellData[row][column] = value`. -/
def updateCellData.row (h : Heap) (sheet : IWorksheetConfig) (row : String)
    (rowData : GoMap Iface) : Option Heap := do
  let h1 ←
    if h.gridIndex sheet.CellData row = none then
      h.makeRow.1.gridAssign sheet.CellData row (some h.makeRow.2)
    else some h
  rowData.entries.foldlM
    (fun hc e => hc.rowAssign (hc.gridIndex sheet.CellData row) e.1 e.2) h1

/-- The function `updateCellData(sheet, actionData)`. `sheet` points to the caller's copy of
the sheet struct, of which only the field `CellData` is read; the effect is on the map
objects. `none` is a runtime panic. -/
def updateCellData (h : Heap) (sheet : IWorksheetConfig) (actionData : ISheetActionData) :
    Option Heap :=
  actionData.CellValue.entries.foldlM (fun hc e => updateCellData.row hc sheet e.1 e.2) h

/-- The function `updateSelction(wsConn, actionData)`: `wsConn.SelectionActionData = *actionData`. -/
def updateSelction (conns : List wsConnection) (wsConn : Nat) (actionData : ISheetActionData) :
    List wsConnection :=
  match conns[wsConn]? with
  | none => conns
  | some c => conns.set wsConn { c with SelectionActionData := actionData }

/-- The function `updateDocument(doc, wsConn)`. `Unmarshal` is `json.Unmarshal` into a
`MessageConfigType`: the decoded envelope and whether an error is reported. The error is
logged and the (possibly partly) decoded envelope is used all the same. -/
def updateDocument (Unmarshal : String → MessageConfigType × Bool) (s : State) (wsConn : Nat) :
    Option State :=
  let data := (Unmarshal s.doc.Data).1
  let config := s.doc.DocsConfig
  let sheet := (config.Sheets.lookup data.ActionData.SheetId).getD IWorksheetConfig.zero
  let actionData := data.ActionData
  if actionData.ActionName = "SetRangeDataAction" then
    (updateCellData s.heap sheet actionData).map (fun h => { s with heap := h })
  else if actionData.ActionName = "SetSelectionValueAction" then
    some { s with conns := updateSelction s.conns wsConn actionData }
  else some s

/-- The field `wsConn.ClientName` read through the pointer. -/
def clientNameOf (conns : List wsConnection) (wsConn : Nat) : String :=
  match conns[wsConn]? with
  | none => ""
  | some c => c.ClientName

/-- The field `c.SelectionActionData` read through the pointer. -/
def selectionOf (conns : List wsConnection) (wsConn : Nat) : ISheetActionData :=
  match conns[wsConn]? with
  | none => ISheetActionData.zero
  | some c => c.SelectionActionData

/-- The envelope the data branch broadcasts: type `data`, `doc.Revision`, `doc.Data`, and the
id and name of the sender. -/
def dataMessage (revision : Int) (data clientID clientName : String) : MessageType :=
  { Type_ := "data", Revision := revision, Data := data, ClientName := clientName,
    ClientID := clientID, Clients := [] }

/-- The `case "data"` branch of `readLoop` for a parsed `message`, run with no other goroutine
in between: store the payload, run `updateDocument`, increment the `int64` revision, then
write the envelope to every connection of `doc.Clients`. `none` is a runtime panic inside
`updateDocument`. The code holds `doc.Mutex` in two separate critical sections, which are
`readLoop.data.mutate` and `readLoop.data.broadcast`; this is the one followed at once by
the other. -/
def readLoop.data (Unmarshal : String → MessageConfigType × Bool) (s : State)
    (clientID : String) (wsConn : Nat) (message : MessageType) : Option State := do
  let s1 : State := { s with doc := { s.doc with Data := message.Data } }
  let s2 ← updateDocument Unmarshal s1 wsConn
  let s3 : State := { s2 with doc := { s2.doc with Revision := wrapInt64 (s2.doc.Revision + 1) } }
  let message :=
    dataMessage s3.doc.Revision s3.doc.Data clientID (clientNameOf s3.conns wsConn)
  some { s3 with
    events := s3.events ++ s3.doc.Clients.entries.map (fun e => Event.WriteJSON e.2 message) }

/-- The first critical section of the `case "data"` branch (from `doc.Mutex.Lock()` before
`doc.Data = message.Data` to the `Unlock` after `doc.Revision++`): store the payload, run
`updateDocument`, increment the `int64` revision. -/
def readLoop.data.mutate (Unmarshal : String → MessageConfigType × Bool) (s : State)
    (wsConn : Nat) (message : MessageType) : Option State := do
  let s1 : State := { s with doc := { s.doc with Data := message.Data } }
  let s2 ← updateDocument Unmarshal s1 wsConn
  some { s2 with doc := { s2.doc with Revision := wrapInt64 (s2.doc.Revision + 1) } }

/-- The second critical section of the `case "data"` branch: the lock is taken again, and for
every connection of `doc.Clients` as it is now an envelope is written that is made of
`doc.Revision` and `doc.Data` as they are now and of the id and name of the sender. -/
def readLoop.data.broadcast (s : State) (clientID : String) (wsConn : Nat) : State :=
  let message := dataMessage s.doc.Revision s.doc.Data clientID (clientNameOf s.conns wsConn)
  { s with events := s.events ++ s.doc.Clients.entries.map (fun e => Event.WriteJSON e.2 message) }

/-- The function `saveDocument(doc)`. `dbErr` tells whether the database update reports an
error, on which the function panics (`none`). -/
def saveDocument (s : State) (dbErr : Bool) : Option State :=
  let s1 : State :=
    { s with events := s.events ++ [Event.saveDocument s.doc.DocsId s.doc.DocsConfig s.heap] }
  if dbErr then none else some s1

/-- The envelope `offline` writes. -/
def offlineMessage (clientID clientName : String) : MessageType :=
  { Type_ := "offline", Revision := 0, Data := "", ClientName := clientName,
    ClientID := clientID, Clients := [] }

/-- The function `offline(clientID, clientName, doc)`. -/
def offline (clientID clientName : String) (s : State) : State :=
  let message := offlineMessage clientID clientName
  { s with events := s.events ++ s.doc.Clients.entries.map (fun e => Event.WriteJSON e.2 message) }

/-- The `err != nil` branch of `readLoop` after `conn.ReadMessage()`, run with no other
goroutine in between: delete the client, notify the others, and call `saveDocument` when
`len(doc.Clients)` is `0`. The code reads the length after it has released `doc.Mutex`:
the two parts are `readLoop.disconnect.locked` and `readLoop.disconnect.check`, and this is
the one followed at once by the other. -/
def readLoop.disconnect (s : State) (clientID : String) (wsConn : Nat) (dbErr : Bool) :
    Option State :=
  let s1 : State := { s with doc := { s.doc with Clients := s.doc.Clients.erase clientID } }
  let s2 := offline clientID (clientNameOf s1.conns wsConn) s1
  let clients := s2.doc.Clients.entries.length
  if clients = 0 then saveDocument s2 dbErr else some s2

/-- The `case <-wsConn.CloseChan` branch of `writeLoop`, run with no other goroutine in
between: the same sequence at its own site, in the same two parts. The branch is taken on
a receive from `wsConn.CloseChan`; no statement of the program sends on that channel or
closes it, so the program never takes it. -/
def writeLoop.close (s : State) (clientID : String) (wsConn : Nat) (dbErr : Bool) :
    Option State :=
  let s1 : State := { s with doc := { s.doc with Clients := s.doc.Clients.erase clientID } }
  let s2 := offline clientID (clientNameOf s1.conns wsConn) s1
  let clients := s2.doc.Clients.entries.length
  if clients = 0 then saveDocument s2 dbErr else some s2

/-- The critical section of a teardown (from `doc.Mutex.Lock()` to `doc.Mutex.Unlock()` in
the `err != nil` branch of `readLoop`, and the same in the `CloseChan` branch of
`writeLoop`): delete the client and notify the others. -/
def readLoop.disconnect.locked (s : State) (clientID : String) (wsConn : Nat) : State :=
  let s1 : State := { s with doc := { s.doc with Clients := s.doc.Clients.erase clientID } }
  offline clientID (clientNameOf s1.conns wsConn) s1

/-- The rest of a teardown, after the lock is released: read `len(doc.Clients)` as it is
now and call `saveDocument` when it is `0`. -/
def readLoop.disconnect.check (s : State) (dbErr : Bool) : Option State :=
  if s.doc.Clients.entries.length = 0 then saveDocument s dbErr else some s

/-- The roster `sendDocumentData` collects while ranging over `doc.Clients`. -/
def clientList (s : State) : List Clients :=
  s.doc.Clients.entries.map (fun e =>
    { ClientName := clientNameOf s.conns e.2, ClientID := e.1,
      SelectionActionData := selectionOf s.conns e.2 })

/-- The first envelope of `sendDocumentData`: type `document`, `doc.Revision`, `doc.Data` and
the id of the client. -/
def documentMessage (revision : Int) (data clientID : String) : MessageType :=
  { Type_ := "document", Revision := revision, Data := data, ClientName := "",
    ClientID := clientID, Clients := [] }

/-- The second envelope of `sendDocumentData`. -/
def clientsMessage (roster : List Clients) : MessageType :=
  { Type_ := "clients", Revision := 0, Data := "", ClientName := "", ClientID := "",
    Clients := roster }

/-- The function `sendDocumentData(clientID, doc, wsConn)`, run with no other goroutine in
between. `writeErr` tells whether the first `WriteJSON` reports an error, on which the
function logs and returns. (An error of the second write is logged and the function returns
as well, with nothing left to do.) The first envelope is made with no lock held and the
roster is collected under `doc.Mutex`: the two parts are `sendDocumentData.document` and
`sendDocumentData.clients`. -/
def sendDocumentData (s : State) (clientID : String) (wsConn : Nat) (writeErr : Bool) : State :=
  let s1 : State :=
    { s with events := s.events ++
        [Event.WriteJSON wsConn (documentMessage s.doc.Revision s.doc.Data clientID)] }
  if writeErr then s1
  else { s1 with events := s1.events ++ [Event.WriteJSON wsConn (clientsMessage (clientList s1))] }

/-- The first part of `sendDocumentData`: the envelope of type `document` is made of
`doc.Revision` and `doc.Data` as they are now and written to the connection. -/
def sendDocumentData.document (s : State) (clientID : String) (wsConn : Nat) : State :=
  { s with events := s.events ++
      [Event.WriteJSON wsConn (documentMessage s.doc.Revision s.doc.Data clientID)] }

/-- The second part of `sendDocumentData`, reached when the first write reported no error:
the roster is collected from `doc.Clients` as it is now, under `doc.Mutex`, and written to
the connection in the envelope of type `clients`. -/
def sendDocumentData.clients (s : State) (wsConn : Nat) : State :=
  { s with events := s.events ++ [Event.WriteJSON wsConn (clientsMessage (clientList s))] }

/-- The `CollaborativeDocument` that `handleWebSocket` creates when `DocMap` has none for
`docs_id`. `docsConfig` with the map objects `heap` is what `json.Unmarshal` made of the
stored config (the zero value with no objects when it could not parse it). -/
def newDocument (docs_id : String) (docsConfig : IWorkbookConfig) (heap : Heap) : State :=
  { doc := { DocsId := docs_id, DocsConfig := docsConfig, Clients := ∅, Revision := 0,
             Data := "Initialize collaborative data" },
    heap := heap, conns := [], events := [] }

/-- The registration in `handleWebSocket`: a new `wsConnection` record with the generated
name, stored under the generated id; the result carries the new record's address. -/
def register (s : State) (clientID clientName : String) : State × Nat :=
  ({ s with
      conns := s.conns ++ [{ ClientName := clientName, SelectionActionData := ISheetActionData.zero }],
      doc := { s.doc with Clients := s.doc.Clients.insert clientID s.conns.length } },
   s.conns.length)

/-- The function `handleWebSocket` from the registration on, for an existing session, run
with no other goroutine in between: register the client and send it the initial sync. -/
def handleWebSocket (s : State) (clientID clientName : String) (writeErr : Bool) : State :=
  sendDocumentData (register s clientID clientName).1 clientID (register s clientID clientName).2
    writeErr

/-- One received message as the loop of `readLoop` sees it: `ReadMessage` failed, the bytes
did not parse as a `MessageType`, or they did. -/
inductive Received where
  | readError
  | unparsable
  | message (m : MessageType)

/-- One iteration of the loop of `readLoop`. -/
def readLoop.step (Unmarshal : String → MessageConfigType × Bool) (s : State)
    (clientID : String) (wsConn : Nat) (dbErr : Bool) : Received → Option State
  | .readError => readLoop.disconnect s clientID wsConn dbErr
  | .unparsable => some s
  | .message m =>
    if m.Type_ = "data" then readLoop.data Unmarshal s clientID wsConn m else some s

/-- The data branch run on a sequence of data messages of the session, in order; each comes
with the client id and the connection of the read loop that received it. -/
def readLoop.dataSeq (Unmarshal : String → MessageConfigType × Bool) (s : State)
    (messages : List (String × Nat × MessageType)) : Option State :=
  messages.foldlM (fun sc m => readLoop.data Unmarshal sc m.1 m.2.1 m.2.2) s

/-! ## Reading the session, and the shape of its store -/

/-- The read `doc.DocsConfig.Sheets[S].CellData[R][C]` on the session's own config. -/
def State.readCell (s : State) (S R C : String) : Option Iface :=
  s.heap.cellAt ((s.doc.DocsConfig.Sheets.lookup S).getD IWorksheetConfig.zero).CellData R C

/-- The grid of sheet `S` of the session's own config, as `json.Marshal` reads it. -/
def State.sheetView (s : State) (S : String) : Option (List (String × Option (GoMap Iface))) :=
  s.heap.gridView ((s.doc.DocsConfig.Sheets.lookup S).getD IWorksheetConfig.zero).CellData

/-- The row keys of the grid of sheet `S` of the session's own config. -/
def State.rowKeys (s : State) (S : String) : List String :=
  match ((s.doc.DocsConfig.Sheets.lookup S).getD IWorksheetConfig.zero).CellData with
  | none => []
  | some g =>
    match s.heap.grids[g]? with
    | none => []
    | some grid => grid.keys

/-- Every row reference stored in a grid object: the grid, the row key, the reference. -/
def Heap.rowRefs (h : Heap) : List (Nat × String × Nat) :=
  h.grids.enum.flatMap
    (fun p => p.2.entries.filterMap (fun e => e.2.map (fun r => (p.1, e.1, r))))

/-- The shape of a store of map objects that were each made by `json.Unmarshal` or by
`make`: every row reference names an existing row object, and no row object is referenced
from two places. -/
def Heap.WF (h : Heap) : Prop :=
  (∀ x ∈ h.rowRefs, x.2.2 < h.rows.length) ∧
    ∀ x ∈ h.rowRefs, ∀ y ∈ h.rowRefs, x.2.2 = y.2.2 → x = y

instance (h : Heap) : Decidable h.WF := by
  unfold Heap.WF
  infer_instance

/-- Every grid reference held by a sheet of the config: the sheet id and the reference. -/
def IWorkbookConfig.gridRefs (c : IWorkbookConfig) : List (String × Nat) :=
  c.Sheets.entries.filterMap (fun e => e.2.CellData.map (fun g => (e.1, g)))

/-- The shape of a session whose config was decoded by `json.Unmarshal`: the store is well
formed, every sheet's grid reference names an existing grid object, and no grid object
belongs to two sheets. -/
def State.WF (s : State) : Prop :=
  s.heap.WF ∧ (∀ x ∈ s.doc.DocsConfig.gridRefs, x.2 < s.heap.grids.length) ∧
    ∀ x ∈ s.doc.DocsConfig.gridRefs, ∀ y ∈ s.doc.DocsConfig.gridRefs, x.2 = y.2 → x = y

instance (s : State) : Decidable s.WF := by
  unfold State.WF
  infer_instance

/-- The shape of a client map built by `handleWebSocket`, which makes a new connection
record for every registration: no record is registered under two client ids, and every
registered reference names an existing record. -/
def State.ClientsWF (s : State) : Prop :=
  (s.doc.Clients.entries.map (fun e => e.2)).Nodup ∧
    ∀ e ∈ s.doc.Clients.entries, e.2 < s.conns.length

instance (s : State) : Decidable s.ClientsWF := by
  unfold State.ClientsWF
  infer_instance

/-- Whether an event is a call of `saveDocument`. -/
def Event.isSave : Event → Bool
  | .saveDocument _ _ _ => true
  | .WriteJSON _ _ => false

/-- The number of calls of `saveDocument` (flushes) made so far. -/
def flushes (s : State) : Nat :=
  s.events.countP Event.isSave

/-- The steps that change the client map of a session, each taken as one uninterrupted run:
a registration by `handleWebSocket`, the teardown in `readLoop` and the teardown in
`writeLoop` (which the program never takes, see `writeLoop.close`). The steps at the grain of
the critical sections are `Act`. -/
inductive Step where
  | register (clientID clientName : String) (writeErr : Bool)
  | readTeardown (clientID : String) (wsConn : Nat) (dbErr : Bool)
  | writeTeardown (clientID : String) (wsConn : Nat) (dbErr : Bool)

/-- One step on a session. -/
def Step.run (s : State) : Step → Option State
  | .register clientID clientName writeErr => some (handleWebSocket s clientID clientName writeErr)
  | .readTeardown clientID wsConn dbErr => readLoop.disconnect s clientID wsConn dbErr
  | .writeTeardown clientID wsConn dbErr => writeLoop.close s clientID wsConn dbErr

/-- A sequence of steps on a session, in order. -/
def runSteps (s : State) (steps : List Step) : Option State :=
  steps.foldlM Step.run s

/-- The steps of the goroutines of a session at the grain of its critical sections: what one
goroutine does between taking `doc.Mutex` and releasing it, or between releasing it and
taking it again, is one step, and the steps of different goroutines interleave. They are
the registration by `handleWebSocket`, the two parts of its initial sync (the second is
not taken when the first write reported an error), the two critical sections of the data
branch of a read loop, and the two parts of the teardown of a read loop: the delete with
the `offline` notice under the lock, then the read of `len(doc.Clients)` with the flush.
The teardown of `writeLoop` is no step: its branch waits for `wsConn.CloseChan`, on which
nothing sends. `clientID` in `mutate` and in `lengthCheck` only tells whose step it is. -/
inductive Act where
  | register (clientID clientName : String)
  | sendDocument (clientID : String) (wsConn : Nat)
  | sendClients (wsConn : Nat)
  | mutate (clientID : String) (wsConn : Nat) (message : MessageType)
  | broadcast (clientID : String) (wsConn : Nat)
  | delete (clientID : String) (wsConn : Nat)
  | lengthCheck (clientID : String) (dbErr : Bool)

/-- One step of a goroutine on a session. -/
def Act.run (Unmarshal : String → MessageConfigType × Bool) (s : State) : Act → Option State
  | .register clientID clientName => some (Docs.register s clientID clientName).1
  | .sendDocument clientID wsConn => some (sendDocumentData.document s clientID wsConn)
  | .sendClients wsConn => some (sendDocumentData.clients s wsConn)
  | .mutate _ wsConn message => readLoop.data.mutate Unmarshal s wsConn message
  | .broadcast clientID wsConn => some (readLoop.data.broadcast s clientID wsConn)
  | .delete clientID wsConn => some (readLoop.disconnect.locked s clientID wsConn)
  | .lengthCheck _ dbErr => readLoop.disconnect.check s dbErr

/-- An interleaving of steps on a session, in order. -/
def runActs (Unmarshal : String → MessageConfigType × Bool) (s : State) (acts : List Act) :
    Option State :=
  acts.foldlM (Act.run Unmarshal) s

/-- Whether a step is a length read of a teardown that finds the client map empty: `1` if
so, `0` otherwise. -/
def Act.emptyCheck (s : State) : Act → Nat
  | .lengthCheck _ _ => if s.doc.Clients.entries.length = 0 then 1 else 0
  | _ => 0

/-- The number of length reads in an interleaving that find the client map empty. -/
def emptyChecks (Unmarshal : String → MessageConfigType × Bool) (s : State) : List Act → Nat
  | [] => 0
  | a :: rest =>
    a.emptyCheck s +
      match a.run Unmarshal s with
      | some s' => emptyChecks Unmarshal s' rest
      | none => 0

/-- The entries of a row of a decoded `cellValue`, assigned one after the other. -/
def insertAll (m : GoMap Iface) (l : List (Sigma fun _ : String => Iface)) : GoMap Iface :=
  l.foldl (fun m e => m.insert e.1 e.2) m

/-- What one pass of the outer loop of `updateCellData`, for the entry `R0, rowData`, does
to the store: the slot `R0` of grid `g` holds the reference `r0`, whose object is the row
`row0` it had before (the empty map if it was `nil`) with `rowData` assigned on top. -/
structure RowStep (g : Nat) (R0 : String) (rowData : GoMap Iface) (grid : GoMap (Option Nat))
    (h h2 : Heap) (r0 : Nat) (row0 : GoMap Iface) : Prop where
  index : ∀ g' R', h2.gridIndex (some g') R'
      = if g' = g ∧ R' = R0 then some r0 else h.gridIndex (some g') R'
  others : ∀ r, r ≠ r0 → h2.rows[r]? = h.rows[r]?
  target : h2.rows[r0]? = some (insertAll row0 rowData.entries)
  origin : (h.gridIndex (some g) R0 = some r0 ∧ h.rows[r0]? = some row0) ∨
      (h.gridIndex (some g) R0 = none ∧ r0 = h.rows.length ∧ row0 = ∅)
  length : h.rows.length ≤ h2.rows.length
  grids : ∀ g', g' ≠ g → h2.grids[g']? = h.grids[g']?
  keys : ∃ grid2, h2.grids[g]? = some grid2 ∧ ∀ k ∈ grid.keys, k ∈ grid2.keys

/-- What `updateCellData` has done to the store once it has ranged over the entries `l`
of `cellValue`, for a sheet whose grid is the object `g`. -/
structure CellsPost (g : Nat) (grid : GoMap (Option Nat))
    (l : List (Sigma fun _ : String => GoMap Iface)) (h h' : Heap) : Prop where
  wf : h'.WF
  grids : ∀ g', g' ≠ g → h'.grids[g']? = h.grids[g']?
  rows : ∀ g', g' ≠ g → ∀ R r, h.gridIndex (some g') R = some r → h'.rows[r]? = h.rows[r]?
  keys : ∃ grid', h'.grids[g]? = some grid' ∧ ∀ k ∈ grid.keys, k ∈ grid'.keys
  cells : ∀ R C, h'.cellAt (some g) R C
      = match (l.dlookup R).bind (fun rd => rd.lookup C) with
        | some v => some v
        | none => h.cellAt (some g) R C

/-- The sessions the hub can be in: made by `handleWebSocket` from a config that
`json.Unmarshal` decoded into new map objects, then changed by registrations, by data
messages on which the data branch completes, and by teardowns. -/
inductive Reachable (Unmarshal : String → MessageConfigType × Bool) : State → Prop where
  | new (docs_id : String) (docsConfig : IWorkbookConfig) (heap : Heap)
      (h : (newDocument docs_id docsConfig heap).WF) :
      Reachable Unmarshal (newDocument docs_id docsConfig heap)
  | step (s s' : State) (st : Step) (h : Reachable Unmarshal s) (hrun : st.run s = some s') :
      Reachable Unmarshal s'
  | data (s s' : State) (clientID : String) (wsConn : Nat) (message : MessageType)
      (h : Reachable Unmarshal s)
      (hrun : readLoop.data Unmarshal s clientID wsConn message = some s') :
      Reachable Unmarshal s'

/-! ## Concrete inputs -/

/-- The payload `{"actionData":{"actionName":"SetRangeDataAction","sheetId":"S1","cellValue":{"0":{"0":42}}}}`. -/
def editPayload : String :=
  "\x7b\"actionData\":\x7b\"actionName\":\"SetRangeDataAction\",\"sheetId\":\"S1\",\"cellValue\":\x7b\"0\":\x7b\"0\":42\x7d\x7d\x7d\x7d"

/-- The payload `{"actionData":{"actionName":"SetSelectionValueAction","sheetId":"S1","selections":[]}}`. -/
def selectPayload : String :=
  "\x7b\"actionData\":\x7b\"actionName\":\"SetSelectionValueAction\",\"sheetId\":\"S1\",\"selections\":[]\x7d\x7d"

/-- The payload `{"actionData":{"actionName":"InsertRowAction","sheetId":"S1"}}`. -/
def otherPayload : String :=
  "\x7b\"actionData\":\x7b\"actionName\":\"InsertRowAction\",\"sheetId\":\"S1\"\x7d\x7d"

/-- The payload `{"actionData":{"actionName":"SetRangeDataAction","operation":"x","sheetId":"S1","cellValue":{"0":{"0":42}}}}`:
valid JSON whose `operation` is a string where the envelope has an `int`. -/
def mistypedPayload : String :=
  "\x7b\"actionData\":\x7b\"actionName\":\"SetRangeDataAction\",\"operation\":\"x\",\"sheetId\":\"S1\",\"cellValue\":\x7b\"0\":\x7b\"0\":42\x7d\x7d\x7d\x7d"

/-- The action data of `editPayload`. -/
def editAction : ISheetActionData :=
  { ActionName := "SetRangeDataAction", Operation := 0,
    CellValue := AList.insert "0" (AList.insert "0" (Iface.number "42") ∅) ∅,
    Selections := [], SheetId := "S1" }

/-- The action data of `selectPayload`. -/
def selectAction : ISheetActionData :=
  { ActionName := "SetSelectionValueAction", Operation := 0, CellValue := ∅,
    Selections := [], SheetId := "S1" }

/-- The action data of `otherPayload`. -/
def otherAction : ISheetActionData :=
  { ActionName := "InsertRowAction", Operation := 0, CellValue := ∅,
    Selections := [], SheetId := "S1" }

/-- What `json.Unmarshal` into a `MessageConfigType` gives on the payloads above. A value of
the wrong type for its field (`mistypedPayload`) is skipped, the rest is decoded, and an
`UnmarshalTypeError` is reported. Every other payload stands for text that is not JSON: the
envelope stays at its zero value and a syntax error is reported. -/
def demoUnmarshal (payload : String) : MessageConfigType × Bool :=
  if payload = editPayload then ({ UniverId := "", ActionData := editAction }, false)
  else if payload = selectPayload then ({ UniverId := "", ActionData := selectAction }, false)
  else if payload = otherPayload then ({ UniverId := "", ActionData := otherAction }, false)
  else if payload = mistypedPayload then ({ UniverId := "", ActionData := editAction }, true)
  else (MessageConfigType.zero, true)

/-- A `data` message with the given payload. -/
def dataMsg (payload : String) : MessageType :=
  { Type_ := "data", Revision := 0, Data := payload, ClientName := "", ClientID := "",
    Clients := [] }

/-- A stored config with one sheet `S1` whose grid is empty, as decoded. -/
def demoConfig : IWorkbookConfig :=
  { IWorkbookConfig.zero with
    Sheets := AList.insert "S1" { IWorksheetConfig.zero with Id := "S1", CellData := some 0 } ∅,
    SheetOrder := ["S1"] }

/-- The map objects of `demoConfig`: one empty grid, no row. -/
def demoHeap : Heap := { grids := [∅], rows := [] }

/-- A new session for document `X` with `demoConfig`, joined by client `A` (named Emma)
and then by client `B` (named Noah). -/
def demoSession : State :=
  (register (register (newDocument "X" demoConfig demoHeap) "A" "Emma").1 "B" "Noah").1

/-- The session `demoSession` with its revision counter at the largest `int64`, where
`2 ^ 63 - 1` data messages take it. -/
def saturatedSession : State :=
  { demoSession with doc := { demoSession.doc with Revision := maxInt64 } }

/-- The session `s` once the data branch has stored `payload` in `doc.Data`. -/
def withData (s : State) (payload : String) : State :=
  { s with doc := { s.doc with Data := payload } }

/-- A stored config with two sheets: `S1` with grid object `0` and `S2` with grid object `1`. -/
def richConfig : IWorkbookConfig :=
  { IWorkbookConfig.zero with
    Sheets :=
      AList.insert "S1" { IWorksheetConfig.zero with Id := "S1", CellData := some 0 }
        (AList.insert "S2" { IWorksheetConfig.zero with Id := "S2", CellData := some 1 } ∅),
    SheetOrder := ["S1", "S2"] }

/-- The map objects of `richConfig`. Grid `0` has row `"0"` (row object `0`, with the cell
`"1"`) and a `nil` row `"1"`; grid `1` has row `"0"` (row object `1`, with the cell `"0"`). -/
def richHeap : Heap :=
  { grids := [AList.insert "0" (some 0) (AList.insert "1" none ∅), AList.insert "0" (some 1) ∅],
    rows := [AList.insert "1" (Iface.string "old") ∅, AList.insert "0" (Iface.number "7") ∅] }

/-- A session for document `Y` with `richConfig`, joined by client `A` (named Emma). -/
def richSession : State :=
  (register (newDocument "Y" richConfig richHeap) "A" "Emma").1

/-- A session for document `X` with `demoConfig` and the single client `A` (named Emma). -/
def soloSession : State :=
  (register (newDocument "X" demoConfig demoHeap) "A" "Emma").1

/-- A session for document `X` whose stored config is the text `default`, as `POST /new`
stores it: `json.Unmarshal` cannot parse it, so `docsConfig` is the zero value, with no
sheet and no map object. Client `A` (named Emma) has joined. -/
def defaultSession : State :=
  (register (newDocument "X" IWorkbookConfig.zero { grids := [], rows := [] }) "A" "Emma").1

/-- A stored config with the sheet `S1` and no `cellData` in it, as decoded: the grid of the
sheet is the `nil` map. -/
def nilGridConfig : IWorkbookConfig :=
  { IWorkbookConfig.zero with
    Sheets := AList.insert "S1" { IWorksheetConfig.zero with Id := "S1" } ∅,
    SheetOrder := ["S1"] }

/-- A session for document `Z` with `nilGridConfig`, joined by client `A` (named Emma). -/
def nilGridSession : State :=
  (register (newDocument "Z" nilGridConfig { grids := [], rows := [] }) "A" "Emma").1

/-- The session `demoSession` after a selection update of client `A`: the record of `A`
holds `selectAction`. -/
def selectedSession : State :=
  { demoSession with conns := updateSelction demoSession.conns 0 selectAction }

/-! ## Lemmas on the map objects -/

/-- A triple is listed by `rowRefs` exactly when the grid holds that reference under that key. -/
theorem Heap.mem_rowRefs (h : Heap) (g : Nat) (R : String) (r : Nat) :
    (g, R, r) ∈ h.rowRefs ↔ h.gridIndex (some g) R = some r := by
  unfold Heap.rowRefs Heap.gridIndex
  simp only [List.mem_flatMap, List.mem_filterMap, Prod.exists, List.mk_mem_enum_iff_getElem?]
  constructor
  · rintro ⟨g', grid, hg, e, he, hx⟩
    rcases e with ⟨k, v⟩
    cases v with
    | none => simp at hx
    | some a =>
      simp at hx
      obtain ⟨rfl, rfl, rfl⟩ := hx
      have : grid.lookup k = some (some a) := AList.mem_lookup_iff.mpr he
      simp [hg, this]
  · intro hx
    cases hg : h.grids[g]? with
    | none => simp [hg] at hx
    | some grid =>
      simp only [hg] at hx
      cases hl : grid.lookup R with
      | none => simp [hl] at hx
      | some v =>
        simp [hl] at hx
        subst hx
        exact ⟨g, grid, hg, ⟨R, some r⟩, AList.mem_lookup_iff.mp hl, by simp⟩

/-- Reading a row after the entries of a map were assigned to it: the assigned value where there
is one, the old value otherwise. -/
theorem lookup_insertAll (l : List (Sigma fun _ : String => Iface)) (hl : l.NodupKeys)
    (m : GoMap Iface) (C : String) :
    (insertAll m l).lookup C = match l.dlookup C with
      | some v => some v
      | none => m.lookup C := by
  induction l generalizing m with
  | nil => simp [insertAll]
  | cons e t ih =>
    rcases e with ⟨k, v⟩
    have ht : t.NodupKeys := (List.nodupKeys_cons.mp hl).2
    have hk : k ∉ t.keys := (List.nodupKeys_cons.mp hl).1
    have := ih ht (m.insert k v)
    simp only [insertAll, List.foldl_cons] at this ⊢
    rw [this]
    by_cases hC : C = k
    · subst hC
      have hn : t.dlookup C = none := List.dlookup_eq_none.mpr hk
      simp [hn, List.dlookup_cons_eq]
    · have : List.dlookup C (⟨k, v⟩ :: t) = List.dlookup C t := List.dlookup_cons_ne _ _ hC
      rw [this]
      cases List.dlookup C t with
      | some v' => rfl
      | none => simp [AList.lookup_insert_ne hC]

/-- An index that holds a value is within the list. -/
theorem lt_of_getElem?_eq_some {α : Type} {l : List α} {i : Nat} {a : α} (h : l[i]? = some a) :
    i < l.length := by
  rcases List.getElem?_eq_some.mp h with ⟨hlt, _⟩
  exact hlt

/-- The inner loop of `updateCellData` on a non-nil row replaces that row object by itself with
all entries assigned, and does not panic. -/
theorem foldlM_rowAssign (l : List (Sigma fun _ : String => Iface)) (cd : Option Nat) (R : String)
    (r : Nat) (h : Heap) (row : GoMap Iface)
    (hG : h.gridIndex cd R = some r) (hr : h.rows[r]? = some row) :
    l.foldlM (fun hc e => hc.rowAssign (hc.gridIndex cd R) e.1 e.2) h
      = some { h with rows := h.rows.set r (insertAll row l) } := by
  induction l generalizing h row with
  | nil =>
    have : h.rows.set r row = h.rows := by
      apply List.ext_getElem?
      intro i
      rw [List.getElem?_set]
      by_cases hi : r = i
      · subst hi
        have hlt : r < h.rows.length := lt_of_getElem?_eq_some hr
        simp [hlt, hr]
      · simp [hi]
    simp [insertAll, this]
  | cons e t ih =>
    have hlt : r < h.rows.length := lt_of_getElem?_eq_some hr
    simp only [List.foldlM_cons]
    have hstep : h.rowAssign (h.gridIndex cd R) e.1 e.2
        = some { h with rows := h.rows.set r (row.insert e.1 e.2) } := by
      simp [Heap.rowAssign, hG, hr]
    rw [hstep]
    simp only [Option.bind_eq_bind, Option.some_bind]
    have hG' : ({ h with rows := h.rows.set r (row.insert e.1 e.2) } : Heap).gridIndex cd R = some r := by
      simpa [Heap.gridIndex] using hG
    have hr' : ({ h with rows := h.rows.set r (row.insert e.1 e.2) } : Heap).rows[r]?
        = some (row.insert e.1 e.2) := by
      simp [List.getElem?_set, hlt]
    rw [ih _ _ hG' hr']
    simp [insertAll]

/-- Well-formedness of the store, said about reads: references are valid, and a row object is
reached under one grid and key only. -/
theorem Heap.WF_iff (h : Heap) :
    h.WF ↔ (∀ g R r, h.gridIndex (some g) R = some r → r < h.rows.length) ∧
      ∀ g R g' R' r, h.gridIndex (some g) R = some r → h.gridIndex (some g') R' = some r →
        g = g' ∧ R = R' := by
  unfold Heap.WF
  constructor
  · rintro ⟨hv, hs⟩
    refine ⟨fun g R r hx => hv (g, R, r) ((h.mem_rowRefs g R r).mpr hx), ?_⟩
    intro g R g' R' r hx hy
    have := hs (g, R, r) ((h.mem_rowRefs g R r).mpr hx) (g', R', r)
      ((h.mem_rowRefs g' R' r).mpr hy) rfl
    simp only [Prod.mk.injEq, and_true] at this
    exact this
  · rintro ⟨hv, hs⟩
    refine ⟨?_, ?_⟩
    · rintro ⟨g, R, r⟩ hx
      exact hv g R r ((h.mem_rowRefs g R r).mp hx)
    · rintro ⟨g, R, r⟩ hx ⟨g', R', r'⟩ hy heq
      simp only at heq
      subst heq
      obtain ⟨rfl, rfl⟩ := hs g R g' R' r ((h.mem_rowRefs g R r).mp hx)
        ((h.mem_rowRefs g' R' r).mp hy)
      rfl

/-- Reading a grid slot does not depend on the row objects. -/
theorem gridIndex_rows (grids : List (GoMap (Option Nat))) (rows rows' : List (GoMap Iface))
    (m : Option Nat) (R : String) :
    ({ grids := grids, rows := rows } : Heap).gridIndex m R
      = ({ grids := grids, rows := rows' } : Heap).gridIndex m R := by
  cases m <;> rfl

/-- One pass of the outer loop of `updateCellData` on an initialised grid does not panic and
acts as `RowStep` says. -/
theorem updateCellData_row_spec (h : Heap) (hwf : h.WF) (sheet : IWorksheetConfig) (g : Nat)
    (grid : GoMap (Option Nat)) (hcd : sheet.CellData = some g) (hg : h.grids[g]? = some grid)
    (R0 : String) (rowData : GoMap Iface) :
    ∃ h2 r0 row0, updateCellData.row h sheet R0 rowData = some h2 ∧
      RowStep g R0 rowData grid h h2 r0 row0 := by
  rcases (h.WF_iff).mp hwf with ⟨hv, _⟩
  have hglt : g < h.grids.length := lt_of_getElem?_eq_some hg
  unfold updateCellData.row
  rw [hcd]
  cases hG : h.gridIndex (some g) R0 with
  | some r0 =>
    have hlt : r0 < h.rows.length := hv g R0 r0 hG
    obtain ⟨row0, hrow⟩ : ∃ row0, h.rows[r0]? = some row0 :=
      ⟨h.rows[r0], List.getElem?_eq_getElem hlt⟩
    refine ⟨{ h with rows := h.rows.set r0 (insertAll row0 rowData.entries) }, r0, row0, ?_, ?_⟩
    · simp only [reduceCtorEq, if_false, Option.bind_eq_bind, Option.some_bind]
      exact foldlM_rowAssign _ _ _ _ _ _ hG hrow
    · refine ⟨?_, ?_, ?_, Or.inl ⟨hG, hrow⟩, ?_, ?_, ?_⟩
      · intro g' R'
        rw [← gridIndex_rows h.grids h.rows]
        split
        · rename_i hc
          rw [hc.1, hc.2]; exact hG
        · rfl
      · intro r hr
        simp [List.getElem?_set_ne (Ne.symm hr)]
      · simp [List.getElem?_set, hlt]
      · simp
      · intro g' _; rfl
      · exact ⟨grid, hg, fun k hk => hk⟩
  | none =>
    have hassign : h.makeRow.1.gridAssign (some g) R0 (some h.makeRow.2)
        = some { grids := h.grids.set g (grid.insert R0 (some h.rows.length)),
                 rows := h.rows ++ [∅] } := by
      simp [Heap.makeRow, Heap.gridAssign, hg]
    let h1 : Heap := { grids := h.grids.set g (grid.insert R0 (some h.rows.length)),
                       rows := h.rows ++ [∅] }
    have hidx : ∀ g' R', h1.gridIndex (some g') R'
        = if g' = g ∧ R' = R0 then some h.rows.length else h.gridIndex (some g') R' := by
      intro g' R'
      simp only [Heap.gridIndex, h1]
      by_cases hgg : g' = g
      · subst hgg
        simp only [List.getElem?_set, hglt, if_true, hg, true_and]
        by_cases hR : R' = R0
        · subst hR
          simp [AList.lookup_insert]
        · simp [hR, AList.lookup_insert_ne hR]
      · simp [List.getElem?_set_ne (Ne.symm hgg), hgg]
    have hG1 : h1.gridIndex (some g) R0 = some h.rows.length := by
      rw [hidx]; simp
    have hrow1 : h1.rows[h.rows.length]? = some ∅ := by
      simp [h1]
    refine ⟨{ h1 with rows := h1.rows.set h.rows.length (insertAll ∅ rowData.entries) },
      h.rows.length, ∅, ?_, ?_⟩
    · simp only [if_true, hassign, Option.bind_eq_bind, Option.some_bind]
      exact foldlM_rowAssign _ _ _ _ h1 _ hG1 hrow1
    · refine ⟨?_, ?_, ?_, Or.inr ⟨hG, rfl, rfl⟩, ?_, ?_, ?_⟩
      · intro g' R'
        rw [← gridIndex_rows h1.grids h1.rows]
        exact hidx g' R'
      · intro r hr
        simp only [h1, List.getElem?_set_ne (Ne.symm hr)]
        by_cases hlt : r < h.rows.length
        · exact List.getElem?_append_left hlt
        · have : h.rows.length < r := by omega
          rw [List.getElem?_eq_none (by simp; omega), List.getElem?_eq_none (by omega)]
      · simp [h1, List.getElem?_set]
      · simp [h1]
      · intro g' hgg
        simp [h1, List.getElem?_set_ne (Ne.symm hgg)]
      · refine ⟨grid.insert R0 (some h.rows.length), by simp [h1, List.getElem?_set, hglt], ?_⟩
        intro k hk
        exact AList.mem_keys.mp ((AList.mem_insert grid).mpr (Or.inr (AList.mem_keys.mpr hk)))

/-- One pass of the outer loop keeps the store well formed. -/
theorem RowStep.wf {g : Nat} {R0 : String} {rowData : GoMap Iface} {grid : GoMap (Option Nat)}
    {h h2 : Heap} {r0 : Nat} {row0 : GoMap Iface} (st : RowStep g R0 rowData grid h h2 r0 row0)
    (hwf : h.WF) : h2.WF := by
  rcases (h.WF_iff).mp hwf with ⟨hv, hs⟩
  have hr0 : r0 < h2.rows.length := lt_of_getElem?_eq_some st.target
  have hlen := st.length
  rw [Heap.WF_iff]
  constructor
  · intro g' R' r hx
    rw [st.index] at hx
    split at hx
    · cases hx; exact hr0
    · exact lt_of_lt_of_le (hv g' R' r hx) hlen
  · intro g1 R1 g2 R2 r hx hy
    rw [st.index] at hx hy
    have hold : ∀ g' R', h.gridIndex (some g') R' = some r0 → g' = g ∧ R' = R0 := by
      intro g' R' hq
      rcases st.origin with ⟨ho, _⟩ | ⟨_, ho, _⟩
      · exact hs g' R' g R0 r0 hq ho
      · have := hv g' R' r0 hq
        omega
    split at hx <;> split at hy
    · rename_i h1 h2'
      exact ⟨h1.1.trans h2'.1.symm, h1.2.trans h2'.2.symm⟩
    · rename_i h1 h2'
      cases hx
      exact absurd (hold g2 R2 hy) h2'
    · rename_i h1 h2'
      cases hy
      exact absurd (hold g1 R1 hx) h1
    · exact hs g1 R1 g2 R2 r hx hy

/-- One pass of the outer loop leaves every row object reached from another slot as it was. -/
theorem RowStep.otherRows {g : Nat} {R0 : String} {rowData : GoMap Iface}
    {grid : GoMap (Option Nat)} {h h2 : Heap} {r0 : Nat} {row0 : GoMap Iface}
    (st : RowStep g R0 rowData grid h h2 r0 row0) (hwf : h.WF)
    (g' : Nat) (R' : String) (r : Nat) (hne : ¬ (g' = g ∧ R' = R0))
    (hx : h.gridIndex (some g') R' = some r) : h2.rows[r]? = h.rows[r]? := by
  rcases (h.WF_iff).mp hwf with ⟨hv, hs⟩
  apply st.others
  intro heq
  subst heq
  rcases st.origin with ⟨ho, _⟩ | ⟨_, ho, _⟩
  · exact hne (hs g' R' g R0 r hx ho)
  · have := hv g' R' r hx
    omega

/-- Reading a column through a non-nil row reference. -/
theorem rowIndex_eq (h : Heap) (r : Nat) (C : String) :
    h.rowIndex (some r) C = (h.rows[r]?).bind (fun row => row.lookup C) := by
  simp only [Heap.rowIndex]
  cases h.rows[r]? <;> rfl

/-- The cells after one pass of the outer loop: the slot written holds the row data on top of
its old cells, every other slot of every grid reads as before. -/
theorem RowStep.cellAt {g : Nat} {R0 : String} {rowData : GoMap Iface}
    {grid : GoMap (Option Nat)} {h h2 : Heap} {r0 : Nat} {row0 : GoMap Iface}
    (st : RowStep g R0 rowData grid h h2 r0 row0) (hwf : h.WF)
    (g' : Nat) (R' C : String) :
    h2.cellAt (some g') R' C
      = if g' = g ∧ R' = R0 then
          (match rowData.lookup C with
            | some v => some v
            | none => h.cellAt (some g) R0 C)
        else h.cellAt (some g') R' C := by
  unfold Heap.cellAt
  rw [st.index]
  split
  · rw [rowIndex_eq, st.target]
    simp only [Option.some_bind]
    rw [lookup_insertAll _ rowData.nodupKeys]
    have hl : List.dlookup C rowData.entries = rowData.lookup C := rfl
    rw [hl]
    cases rowData.lookup C with
    | some v => rfl
    | none =>
      simp only
      rcases st.origin with ⟨ho, hrow⟩ | ⟨ho, _, hrow⟩
      · rw [ho, rowIndex_eq, hrow]; rfl
      · rw [ho, hrow]; rfl
  · rename_i hne
    cases hx : h.gridIndex (some g') R' with
    | none => rfl
    | some r =>
      rw [rowIndex_eq, rowIndex_eq, st.otherRows hwf g' R' r hne hx]

/-- The outer loop of `updateCellData` over the entries of a map, on an initialised grid of a
well-formed store, does not panic and acts as `CellsPost` says. -/
theorem foldlM_updateCellData_row (sheet : IWorksheetConfig) (g : Nat)
    (hcd : sheet.CellData = some g) (l : List (Sigma fun _ : String => GoMap Iface))
    (hl : l.NodupKeys) (h : Heap) (hwf : h.WF) (grid : GoMap (Option Nat))
    (hg : h.grids[g]? = some grid) :
    ∃ h', l.foldlM (fun hc e => updateCellData.row hc sheet e.1 e.2) h = some h' ∧
      CellsPost g grid l h h' := by
  induction l generalizing h grid with
  | nil =>
    refine ⟨h, rfl, hwf, fun _ _ => rfl, fun _ _ _ _ _ => rfl, ⟨grid, hg, fun k hk => hk⟩, ?_⟩
    intro R C
    simp
  | cons e t ih =>
    rcases e with ⟨R0, rd⟩
    have ht : t.NodupKeys := (List.nodupKeys_cons.mp hl).2
    have hk : R0 ∉ t.keys := (List.nodupKeys_cons.mp hl).1
    obtain ⟨h2, r0, row0, hrun, st⟩ := updateCellData_row_spec h hwf sheet g grid hcd hg R0 rd
    obtain ⟨grid2, hg2, hkeys2⟩ := st.keys
    obtain ⟨h', hrun', post⟩ := ih ht h2 (st.wf hwf) grid2 hg2
    refine ⟨h', ?_, post.wf, ?_, ?_, ?_, ?_⟩
    · simp only [List.foldlM_cons, hrun, Option.bind_eq_bind, Option.some_bind]
      exact hrun'
    · intro g' hne
      rw [post.grids g' hne, st.grids g' hne]
    · intro g' hne R r hx
      have hx2 : h2.gridIndex (some g') R = some r := by
        rw [st.index]
        rw [if_neg (fun hc => hne hc.1)]
        exact hx
      rw [post.rows g' hne R r hx2]
      exact st.otherRows hwf g' R r (fun hc => hne hc.1) hx
    · obtain ⟨grid', hg', hkeys'⟩ := post.keys
      exact ⟨grid', hg', fun k hk => hkeys' k (hkeys2 k hk)⟩
    · intro R C
      rw [post.cells R C, st.cellAt hwf g R C]
      by_cases hR : R = R0
      · subst hR
        have hn : List.dlookup R t = none := List.dlookup_eq_none.mpr hk
        simp [hn, List.dlookup_cons_eq]
      · have hd : List.dlookup R (⟨R0, rd⟩ :: t) = List.dlookup R t :=
          List.dlookup_cons_ne _ _ hR
        rw [hd]
        simp [hR]

/-- The function `updateCellData` on an initialised grid of a well-formed store does not panic
and acts as `CellsPost` says. -/
theorem updateCellData_spec (h : Heap) (hwf : h.WF) (sheet : IWorksheetConfig)
    (actionData : ISheetActionData) (g : Nat) (grid : GoMap (Option Nat))
    (hcd : sheet.CellData = some g) (hg : h.grids[g]? = some grid) :
    ∃ h', updateCellData h sheet actionData = some h' ∧
      CellsPost g grid actionData.CellValue.entries h h' :=
  foldlM_updateCellData_row sheet g hcd _ actionData.CellValue.nodupKeys h hwf grid hg

/-- On a sheet without a grid `updateCellData` either panics or has nothing to do. -/
theorem updateCellData_nil {h h' : Heap} {sheet : IWorksheetConfig}
    {actionData : ISheetActionData} (hcd : sheet.CellData = none)
    (hrun : updateCellData h sheet actionData = some h') : h' = h := by
  unfold updateCellData at hrun
  cases hl : actionData.CellValue.entries with
  | nil =>
    rw [hl] at hrun
    simp only [List.foldlM_nil] at hrun
    cases hrun
    rfl
  | cons e t =>
    rw [hl] at hrun
    have hrow : updateCellData.row h sheet e.1 e.2 = none := by
      simp [updateCellData.row, hcd, Heap.gridIndex, Heap.gridAssign]
    simp [List.foldlM_cons, hrow] at hrun

/-! ## The revision counter -/

/-- `updateDocument` assigns to no field of the document and makes no call. -/
theorem updateDocument_doc {Unmarshal : String → MessageConfigType × Bool} {s s' : State}
    {wsConn : Nat} (hrun : updateDocument Unmarshal s wsConn = some s') :
    s'.doc = s.doc ∧ s'.events = s.events := by
  unfold updateDocument at hrun
  simp only at hrun
  split at hrun
  · rcases Option.map_eq_some'.mp hrun with ⟨h', _, rfl⟩
    exact ⟨rfl, rfl⟩
  · split at hrun <;> (cases hrun; exact ⟨rfl, rfl⟩)

/-- The data branch, when it completes, leaves the incremented `int64` revision. -/
theorem readLoop_data_revision {Unmarshal : String → MessageConfigType × Bool} {s s' : State}
    {clientID : String} {wsConn : Nat} {message : MessageType}
    (hrun : readLoop.data Unmarshal s clientID wsConn message = some s') :
    s'.doc.Revision = wrapInt64 (s.doc.Revision + 1) := by
  unfold readLoop.data at hrun
  simp only [Option.bind_eq_bind, Option.bind_eq_some] at hrun
  obtain ⟨s2, h2, hs'⟩ := hrun
  cases hs'
  have := (updateDocument_doc h2).1
  simp [this]

/-- An integer within the `int64` range is stored as itself. -/
theorem wrapInt64_of_range {x : Int} (hlo : minInt64 ≤ x) (hhi : x ≤ maxInt64) :
    wrapInt64 x = x := by
  unfold wrapInt64
  unfold minInt64 at hlo
  unfold maxInt64 at hhi
  omega

/-- C1 (amended): when the data branch completes on each of a sequence of N data messages of
a session, whoever sent them and whatever their payloads, and the revision r before is an
`int64` with r + N at most the largest `int64`, the revision afterwards is r + N; a new
session starts at revision 0. -/
theorem revision_after_data_messages (Unmarshal : String → MessageConfigType × Bool)
    (s s' : State) (messages : List (String × Nat × MessageType))
    (hrun : readLoop.dataSeq Unmarshal s messages = some s')
    (hlo : minInt64 ≤ s.doc.Revision) (hhi : s.doc.Revision + messages.length ≤ maxInt64) :
    s'.doc.Revision = s.doc.Revision + messages.length ∧
      ∀ docs_id docsConfig heap, (newDocument docs_id docsConfig heap).doc.Revision = 0 := by
  refine ⟨?_, fun _ _ _ => rfl⟩
  induction messages generalizing s with
  | nil =>
    simp [readLoop.dataSeq] at hrun
    simp [hrun]
  | cons m t ih =>
    simp only [readLoop.dataSeq, List.foldlM_cons, Option.bind_eq_bind,
      Option.bind_eq_some] at hrun
    obtain ⟨s1, h1, hrest⟩ := hrun
    have hr1 := readLoop_data_revision h1
    simp only [List.length_cons, Nat.cast_add, Nat.cast_one] at hhi ⊢
    have hw : wrapInt64 (s.doc.Revision + 1) = s.doc.Revision + 1 :=
      wrapInt64_of_range (by omega) (by omega)
    rw [hw] at hr1
    have := ih s1 hrest (by omega) (by omega)
    omega

/-- The theorem `revision_after_data_messages` on `demoSession`: an edit by `A` and a selection
update by `B` take the revision from 0 to 2. -/
theorem revision_after_data_messages_witness :
    minInt64 ≤ demoSession.doc.Revision ∧ demoSession.doc.Revision + 2 ≤ maxInt64 ∧
      (readLoop.dataSeq demoUnmarshal demoSession
        [("A", 0, dataMsg editPayload), ("B", 1, dataMsg selectPayload)]).map
          (fun s' => s'.doc.Revision) = some (demoSession.doc.Revision + 2) := by
  have hsome : (readLoop.dataSeq demoUnmarshal demoSession
      [("A", 0, dataMsg editPayload), ("B", 1, dataMsg selectPayload)]).isSome = true := by
    decide
  obtain ⟨s', hs'⟩ := Option.isSome_iff_exists.mp hsome
  refine ⟨by decide, by decide, ?_⟩
  rw [hs']
  exact congrArg some (revision_after_data_messages demoUnmarshal demoSession s'
    [("A", 0, dataMsg editPayload), ("B", 1, dataMsg selectPayload)] hs'
    (by decide) (by decide)).1

/-- C1 as stated fails at the largest `int64`: one data message on `saturatedSession`, whose
revision is 9223372036854775807, leaves revision -9223372036854775808, not the revision
before plus 1. -/
theorem revision_wraps_counterexample :
    (readLoop.dataSeq demoUnmarshal saturatedSession [("A", 0, dataMsg otherPayload)]).map
        (fun s' => s'.doc.Revision) = some (-9223372036854775808) ∧
      (-9223372036854775808 : Int) ≠ saturatedSession.doc.Revision + 1 := by
  decide

/-! ## Cell-range writes -/

/-- A pair is listed by `gridRefs` exactly when that sheet holds that grid reference. -/
theorem IWorkbookConfig.mem_gridRefs (c : IWorkbookConfig) (S : String) (g : Nat) :
    (S, g) ∈ c.gridRefs ↔ ∃ sheet, c.Sheets.lookup S = some sheet ∧ sheet.CellData = some g := by
  unfold IWorkbookConfig.gridRefs
  simp only [List.mem_filterMap]
  constructor
  · rintro ⟨⟨k, sheet⟩, he, hx⟩
    cases hc : sheet.CellData with
    | none => simp [hc] at hx
    | some a =>
      simp [hc] at hx
      obtain ⟨rfl, rfl⟩ := hx
      exact ⟨sheet, AList.mem_lookup_iff.mpr he, hc⟩
  · rintro ⟨sheet, hl, hc⟩
    exact ⟨⟨S, sheet⟩, AList.mem_lookup_iff.mp hl, by simp [hc]⟩

/-- The grid of a sheet of a well-formed session exists, and is the grid of that sheet only. -/
theorem State.WF.grid {s : State} (hwf : s.WF) {S : String} {sheet : IWorksheetConfig} {g : Nat}
    (hsheet : s.doc.DocsConfig.Sheets.lookup S = some sheet) (hcd : sheet.CellData = some g) :
    (∃ grid, s.heap.grids[g]? = some grid) ∧
      ∀ S' sheet', s.doc.DocsConfig.Sheets.lookup S' = some sheet' → sheet'.CellData = some g →
        S' = S := by
  obtain ⟨_, hv, hi⟩ := hwf
  have hmem : (S, g) ∈ s.doc.DocsConfig.gridRefs :=
    (s.doc.DocsConfig.mem_gridRefs S g).mpr ⟨sheet, hsheet, hcd⟩
  constructor
  · have hlt : g < s.heap.grids.length := hv (S, g) hmem
    exact ⟨s.heap.grids[g], List.getElem?_eq_getElem hlt⟩
  · intro S' sheet' hs' hc'
    have hmem' : (S', g) ∈ s.doc.DocsConfig.gridRefs :=
      (s.doc.DocsConfig.mem_gridRefs S' g).mpr ⟨sheet', hs', hc'⟩
    have := hi (S', g) hmem' (S, g) hmem rfl
    simpa using congrArg Prod.fst this

/-- A cell-range write on an initialised sheet of a well-formed session: `updateDocument`
does not panic, leaves document, connections and events as they are, and changes the store
as `CellsPost` says. -/
theorem updateDocument_setRange (Unmarshal : String → MessageConfigType × Bool) (s : State)
    (wsConn : Nat) (sheet : IWorksheetConfig) (g : Nat) (hwf : s.WF)
    (hname : (Unmarshal s.doc.Data).1.ActionData.ActionName = "SetRangeDataAction")
    (hsheet : s.doc.DocsConfig.Sheets.lookup (Unmarshal s.doc.Data).1.ActionData.SheetId
      = some sheet)
    (hcd : sheet.CellData = some g) :
    ∃ s' grid, s.heap.grids[g]? = some grid ∧ updateDocument Unmarshal s wsConn = some s' ∧
      s'.doc = s.doc ∧ s'.conns = s.conns ∧ s'.events = s.events ∧
      CellsPost g grid (Unmarshal s.doc.Data).1.ActionData.CellValue.entries s.heap s'.heap := by
  obtain ⟨⟨grid, hg⟩, _⟩ := hwf.grid hsheet hcd
  obtain ⟨h', hrun, post⟩ :=
    updateCellData_spec s.heap hwf.1 sheet (Unmarshal s.doc.Data).1.ActionData g grid hcd hg
  refine ⟨{ s with heap := h' }, grid, hg, ?_, rfl, rfl, rfl, post⟩
  unfold updateDocument
  simp only [hname, if_true, hsheet, Option.getD_some, hrun, Option.map_some']

/-- A cell-range write keeps a well-formed session well formed. -/
theorem State.WF.setRange {s s' : State} (hwf : s.WF) {g : Nat} {grid : GoMap (Option Nat)}
    {l : List (Sigma fun _ : String => GoMap Iface)} (hdoc : s'.doc = s.doc)
    (post : CellsPost g grid l s.heap s'.heap) : s'.WF := by
  obtain ⟨_, hv, hi⟩ := hwf
  refine ⟨post.wf, ?_, ?_⟩
  · rw [hdoc]
    intro x hx
    by_cases hxg : x.2 = g
    · obtain ⟨grid', hg', _⟩ := post.keys
      rw [hxg]
      exact lt_of_getElem?_eq_some hg'
    · have hlt := hv x hx
      have : s'.heap.grids[x.2]? = some s.heap.grids[x.2] := by
        rw [post.grids x.2 hxg]
        exact List.getElem?_eq_getElem hlt
      exact lt_of_getElem?_eq_some this
  · rw [hdoc]
    exact hi

/-- C2: for a well-formed session whose config has sheet `S` with an initialised grid, a
`SetRangeDataAction` for `S` with `cellValue[R][C] = V` makes `updateDocument` complete, and
afterwards the read `doc.DocsConfig.Sheets[S].CellData[R][C]` on the session's own config
gives `V`, whether or not row `R` existed; the session stays well formed. -/
theorem cell_write_reaches_session_config (Unmarshal : String → MessageConfigType × Bool)
    (s : State) (wsConn : Nat) (S R C : String) (V : Iface) (sheet : IWorksheetConfig) (g : Nat)
    (rowData : GoMap Iface) (hwf : s.WF)
    (hsheet : s.doc.DocsConfig.Sheets.lookup S = some sheet) (hcd : sheet.CellData = some g)
    (hname : (Unmarshal s.doc.Data).1.ActionData.ActionName = "SetRangeDataAction")
    (hS : (Unmarshal s.doc.Data).1.ActionData.SheetId = S)
    (hrow : (Unmarshal s.doc.Data).1.ActionData.CellValue.lookup R = some rowData)
    (hcell : rowData.lookup C = some V) :
    ∃ s', updateDocument Unmarshal s wsConn = some s' ∧ s'.readCell S R C = some V ∧ s'.WF := by
  subst hS
  obtain ⟨s', grid, hg, hrun, hdoc, _, _, post⟩ :=
    updateDocument_setRange Unmarshal s wsConn sheet g hwf hname hsheet hcd
  refine ⟨s', hrun, ?_, hwf.setRange hdoc post⟩
  unfold State.readCell
  rw [hdoc, hsheet, Option.getD_some, hcd, post.cells R C]
  have : List.dlookup R (Unmarshal s.doc.Data).1.ActionData.CellValue.entries = some rowData :=
    hrow
  simp [this, hcell]



/-- The view of a grid is the same in two stores that agree on the grid object and on the
row objects it refers to. -/
theorem gridView_congr {h h' : Heap} {g : Nat} (hgrid : h'.grids[g]? = h.grids[g]?)
    (hrows : ∀ R r, h.gridIndex (some g) R = some r → h'.rows[r]? = h.rows[r]?) :
    h'.gridView (some g) = h.gridView (some g) := by
  simp only [Heap.gridView]
  rw [hgrid]
  cases hg : h.grids[g]? with
  | none => rfl
  | some grid =>
    simp only [Option.some.injEq]
    apply List.map_congr_left
    rintro ⟨R, v⟩ he
    cases v with
    | none => rfl
    | some r =>
      have hl : grid.lookup R = some (some r) := AList.mem_lookup_iff.mpr he
      have hx : h.gridIndex (some g) R = some r := by
        simp [Heap.gridIndex, hg, hl]
      simp only [Heap.rowView, hrows R r hx]

/-- C3: a cell-range write for sheet `S` on a well-formed session is a per-key upsert. On an
initialised grid `updateDocument` completes. Whenever it completes, every (row, column) key
of the grid of `S` that does not occur in `cellValue` reads as before, also in a row that
was written; no (row, column) key and no row key of the grid is removed; the grid of every
other sheet is as before; and the config struct itself is not assigned to. -/
theorem cell_write_is_upsert (Unmarshal : String → MessageConfigType × Bool)
    (s : State) (wsConn : Nat) (S : String) (hwf : s.WF)
    (hname : (Unmarshal s.doc.Data).1.ActionData.ActionName = "SetRangeDataAction")
    (hS : (Unmarshal s.doc.Data).1.ActionData.SheetId = S) :
    (∀ sheet g, s.doc.DocsConfig.Sheets.lookup S = some sheet → sheet.CellData = some g →
      ∃ s', updateDocument Unmarshal s wsConn = some s') ∧
    ∀ s', updateDocument Unmarshal s wsConn = some s' →
      (∀ R C, ((Unmarshal s.doc.Data).1.ActionData.CellValue.lookup R).bind
          (fun rowData => rowData.lookup C) = none → s'.readCell S R C = s.readCell S R C) ∧
      (∀ R C, (s.readCell S R C).isSome = true → (s'.readCell S R C).isSome = true) ∧
      (∀ R, R ∈ s.rowKeys S → R ∈ s'.rowKeys S) ∧
      (∀ S', S' ≠ S → s'.sheetView S' = s.sheetView S') ∧
      s'.doc.DocsConfig = s.doc.DocsConfig := by
  subst hS
  constructor
  · intro sheet g hsheet hcd
    obtain ⟨s', _, _, hrun, _⟩ :=
      updateDocument_setRange Unmarshal s wsConn sheet g hwf hname hsheet hcd
    exact ⟨s', hrun⟩
  · intro s' hrun
    have hnil : ((s.doc.DocsConfig.Sheets.lookup (Unmarshal s.doc.Data).1.ActionData.SheetId).getD
        IWorksheetConfig.zero).CellData = none → s' = s := by
      intro hcd
      unfold updateDocument at hrun
      simp only [hname, if_true] at hrun
      rcases Option.map_eq_some'.mp hrun with ⟨h', hh', rfl⟩
      have := updateCellData_nil hcd hh'
      subst this
      rfl
    cases hcd0 : ((s.doc.DocsConfig.Sheets.lookup
        (Unmarshal s.doc.Data).1.ActionData.SheetId).getD IWorksheetConfig.zero).CellData with
    | none =>
      have := hnil hcd0
      subst this
      exact ⟨fun _ _ _ => rfl, fun _ _ h => h, fun _ h => h, fun _ _ => rfl, rfl⟩
    | some g =>
      cases hl : s.doc.DocsConfig.Sheets.lookup (Unmarshal s.doc.Data).1.ActionData.SheetId with
      | none =>
        rw [hl] at hcd0
        cases hcd0
      | some sheet =>
        rw [hl, Option.getD_some] at hcd0
        obtain ⟨s2, grid, hg, hrun2, hdoc, _, _, post⟩ :=
          updateDocument_setRange Unmarshal s wsConn sheet g hwf hname hl hcd0
        rw [hrun2] at hrun
        cases hrun
        have hread : ∀ R C, s'.readCell (Unmarshal s.doc.Data).1.ActionData.SheetId R C
            = match ((Unmarshal s.doc.Data).1.ActionData.CellValue.lookup R).bind
                  (fun rowData => rowData.lookup C) with
              | some v => some v
              | none => s.readCell (Unmarshal s.doc.Data).1.ActionData.SheetId R C := by
          intro R C
          unfold State.readCell
          rw [hdoc, hl, Option.getD_some, hcd0, post.cells R C]
          rfl
        refine ⟨?_, ?_, ?_, ?_, by rw [hdoc]⟩
        · intro R C hnone
          rw [hread, hnone]
        · intro R C hsome
          rw [hread]
          cases ((Unmarshal s.doc.Data).1.ActionData.CellValue.lookup R).bind
              (fun rowData => rowData.lookup C) with
          | some v => rfl
          | none => exact hsome
        · intro R hR
          obtain ⟨grid', hg', hkeys⟩ := post.keys
          unfold State.rowKeys at hR ⊢
          rw [hdoc, hl, Option.getD_some, hcd0]
          rw [hl, Option.getD_some, hcd0] at hR
          simp only [hg] at hR
          simp only [hg']
          exact hkeys R hR
        · intro S' hne
          unfold State.sheetView
          rw [hdoc]
          cases hl' : s.doc.DocsConfig.Sheets.lookup S' with
          | none => rfl
          | some sheet' =>
            simp only [Option.getD_some]
            cases hc' : sheet'.CellData with
            | none => rfl
            | some g' =>
              have hgg : g' ≠ g := by
                intro heq
                subst heq
                exact hne ((hwf.grid hl hcd0).2 S' sheet' hl' hc')
              exact gridView_congr (post.grids g' hgg) (post.rows g' hgg)

/-- The theorem `cell_write_reaches_session_config` on `demoSession`, whose sheet `S1` has an
empty grid: after the edit `cellValue["0"]["0"] = 42` the session's own config reads 42 at
row `"0"`, which did not exist before. -/
theorem cell_write_reaches_session_config_witness :
    (withData demoSession editPayload).WF ∧
      (withData demoSession editPayload).rowKeys "S1" = [] ∧
      (updateDocument demoUnmarshal (withData demoSession editPayload) 0).map
        (fun s' => s'.readCell "S1" "0" "0") = some (some (Iface.number "42")) := by
  obtain ⟨s', hrun, hread, _⟩ := cell_write_reaches_session_config demoUnmarshal
    (withData demoSession editPayload) 0 "S1" "0" "0" (Iface.number "42")
    { IWorksheetConfig.zero with Id := "S1", CellData := some 0 } 0
    (AList.insert "0" (Iface.number "42") ∅) (by decide) (by decide) rfl (by decide)
    (by decide) rfl (by decide)
  refine ⟨by decide, by decide, ?_⟩
  rw [hrun]
  exact congrArg some hread

/-- The theorem `cell_write_is_upsert` on `richSession`: the edit `cellValue["0"]["0"] = 42` on
sheet `S1` leaves the cell `"1"` of the same row at its old value and the grid of sheet `S2`
as it was. -/
theorem cell_write_is_upsert_witness :
    (withData richSession editPayload).WF ∧
      (withData richSession editPayload).readCell "S1" "0" "1" = some (Iface.string "old") ∧
      (updateDocument demoUnmarshal (withData richSession editPayload) 0).map
        (fun s' => (s'.readCell "S1" "0" "1", s'.sheetView "S2"))
        = some (some (Iface.string "old"), (withData richSession editPayload).sheetView "S2") := by
  obtain ⟨hcomplete, hframe⟩ := cell_write_is_upsert demoUnmarshal
    (withData richSession editPayload) 0 "S1" (by decide) (by decide) (by decide)
  obtain ⟨s', hrun⟩ := hcomplete
    { IWorksheetConfig.zero with Id := "S1", CellData := some 0 } 0 (by decide) rfl
  obtain ⟨hkeep, _, _, hother, _⟩ := hframe s' hrun
  refine ⟨by decide, by decide, ?_⟩
  rw [hrun]
  have h1 := hkeep "0" "1" (by decide)
  have h2 := hother "S2" (by decide)
  have h3 : (withData richSession editPayload).readCell "S1" "0" "1"
      = some (Iface.string "old") := by decide
  simp only [Option.map_some', h1, h2, h3]

/-! ## Actions other than the cell-range write -/

/-- Storing a selection on a connection changes the name of no connection. -/
theorem clientNameOf_updateSelction (conns : List wsConnection) (wsConn : Nat)
    (actionData : ISheetActionData) (p : Nat) :
    clientNameOf (updateSelction conns wsConn actionData) p = clientNameOf conns p := by
  unfold updateSelction
  cases hc : conns[wsConn]? with
  | none => rfl
  | some c =>
    simp only [clientNameOf]
    by_cases hp : wsConn = p
    · subst hp
      simp [List.getElem?_set, lt_of_getElem?_eq_some hc, hc]
    · simp [List.getElem?_set_ne hp]

/-- The function `updateDocument` changes the name of no connection. -/
theorem updateDocument_clientNameOf {Unmarshal : String → MessageConfigType × Bool}
    {s s' : State} {wsConn : Nat} (hrun : updateDocument Unmarshal s wsConn = some s') (p : Nat) :
    clientNameOf s'.conns p = clientNameOf s.conns p := by
  unfold updateDocument at hrun
  simp only at hrun
  split at hrun
  · rcases Option.map_eq_some'.mp hrun with ⟨h', _, rfl⟩
    rfl
  · split at hrun
    · cases hrun
      exact clientNameOf_updateSelction _ _ _ _
    · cases hrun
      rfl

/-- The function `updateDocument` completes on every action other than the cell-range write. -/
theorem updateDocument_isSome_of_ne_setRange (Unmarshal : String → MessageConfigType × Bool)
    (s : State) (wsConn : Nat)
    (hname : (Unmarshal s.doc.Data).1.ActionData.ActionName ≠ "SetRangeDataAction") :
    ∃ s', updateDocument Unmarshal s wsConn = some s' := by
  unfold updateDocument
  simp only [if_neg hname]
  split
  · exact ⟨_, rfl⟩
  · exact ⟨_, rfl⟩

/-- C4: on a payload whose action name is not `SetRangeDataAction`, `updateDocument` completes
and leaves the document (with its config), the map objects the config refers to, and the
events as they are, and changes no connection record other than the sender's. For
`SetSelectionValueAction` the sender's record gets the received action data as its
`SelectionActionData`; for every other action name no record changes at all. -/
theorem other_actions_leave_config (Unmarshal : String → MessageConfigType × Bool) (s : State)
    (wsConn : Nat)
    (hname : (Unmarshal s.doc.Data).1.ActionData.ActionName ≠ "SetRangeDataAction") :
    ∃ s', updateDocument Unmarshal s wsConn = some s' ∧
      s'.doc = s.doc ∧ s'.heap = s.heap ∧ s'.events = s.events ∧
      (∀ c, c ≠ wsConn → s'.conns[c]? = s.conns[c]?) ∧
      ((Unmarshal s.doc.Data).1.ActionData.ActionName = "SetSelectionValueAction" →
        s'.conns[wsConn]? = (s.conns[wsConn]?).map
          (fun c => { c with SelectionActionData := (Unmarshal s.doc.Data).1.ActionData })) ∧
      ((Unmarshal s.doc.Data).1.ActionData.ActionName ≠ "SetSelectionValueAction" →
        s'.conns = s.conns) := by
  by_cases hsel : (Unmarshal s.doc.Data).1.ActionData.ActionName = "SetSelectionValueAction"
  · have hrun : updateDocument Unmarshal s wsConn = some { s with
        conns := updateSelction s.conns wsConn (Unmarshal s.doc.Data).1.ActionData } := by
      unfold updateDocument
      simp only [if_neg hname, if_pos hsel]
    refine ⟨_, hrun, rfl, rfl, rfl, ?_, ?_, ?_⟩
    · intro c hc
      simp only [updateSelction]
      cases hw : s.conns[wsConn]? with
      | none => rfl
      | some conn => simp [List.getElem?_set_ne (Ne.symm hc)]
    · intro _
      simp only [updateSelction]
      cases hw : s.conns[wsConn]? with
      | none => simp [hw]
      | some conn => simp [List.getElem?_set, lt_of_getElem?_eq_some hw]
    · intro hne
      exact absurd hsel hne
  · have hrun : updateDocument Unmarshal s wsConn = some s := by
      unfold updateDocument
      simp only [if_neg hname, if_neg hsel]
    exact ⟨s, hrun, rfl, rfl, rfl, fun _ _ => rfl, fun h => absurd h hsel, fun _ => rfl⟩

/-- The theorem `other_actions_leave_config` on `demoSession` with a selection update from
client `A` (connection `0`): config and map objects stay, the record of `B` (connection `1`)
stays, and the record of `A` holds the received action data. -/
theorem other_actions_leave_config_witness :
    (demoUnmarshal (withData demoSession selectPayload).doc.Data).1.ActionData.ActionName
        ≠ "SetRangeDataAction" ∧
      (updateDocument demoUnmarshal (withData demoSession selectPayload) 0).map
        (fun s' => (s'.doc.DocsConfig, s'.heap, s'.conns[1]?, s'.conns[0]?))
        = some (demoSession.doc.DocsConfig, demoSession.heap, demoSession.conns[1]?,
            some { ClientName := "Emma", SelectionActionData := selectAction }) := by
  obtain ⟨s', hrun, hdoc, hheap, _, hothers, hsel, _⟩ := other_actions_leave_config
    demoUnmarshal (withData demoSession selectPayload) 0 (by decide)
  refine ⟨by decide, ?_⟩
  rw [hrun]
  simp only [Option.map_some', hdoc, hheap, hothers 1 (by decide), hsel (by decide)]
  rfl

/-! ## The broadcast of the data branch -/

/-- The data branch, when it completes: the state `updateDocument` leaves, with the revision
incremented and one `data` envelope written per registered connection. -/
theorem readLoop_data_eq {Unmarshal : String → MessageConfigType × Bool} {s s' : State}
    {clientID : String} {wsConn : Nat} {message : MessageType}
    (hrun : readLoop.data Unmarshal s clientID wsConn message = some s') :
    ∃ s2, updateDocument Unmarshal (withData s message.Data) wsConn = some s2 ∧
      s'.doc = { s.doc with Data := message.Data, Revision := wrapInt64 (s.doc.Revision + 1) } ∧
      s'.heap = s2.heap ∧ s'.conns = s2.conns ∧
      s'.events = s.events ++ s.doc.Clients.entries.map (fun e => Event.WriteJSON e.2
        (dataMessage (wrapInt64 (s.doc.Revision + 1)) message.Data clientID
          (clientNameOf s.conns wsConn))) := by
  unfold readLoop.data at hrun
  simp only [Option.bind_eq_bind, Option.bind_eq_some] at hrun
  obtain ⟨s2, h2, hs'⟩ := hrun
  cases hs'
  obtain ⟨hdoc, hev⟩ := updateDocument_doc h2
  have hname := updateDocument_clientNameOf h2 wsConn
  refine ⟨s2, h2, ?_, rfl, rfl, ?_⟩
  · simp only [hdoc]
  · simp only [hdoc, hev, hname]

/-- The data branch completes exactly when `updateDocument` does, on the session with the
payload stored. -/
theorem readLoop_data_isSome (Unmarshal : String → MessageConfigType × Bool) (s : State)
    (clientID : String) (wsConn : Nat) (message : MessageType) :
    (readLoop.data Unmarshal s clientID wsConn message).isSome
      = (updateDocument Unmarshal (withData s message.Data) wsConn).isSome := by
  have hdef : readLoop.data Unmarshal s clientID wsConn message
      = (updateDocument Unmarshal (withData s message.Data) wsConn).bind (fun s2 =>
          some { s2 with
            doc := { s2.doc with Revision := wrapInt64 (s2.doc.Revision + 1) },
            events := s2.events ++ s2.doc.Clients.entries.map (fun e => Event.WriteJSON e.2
              (dataMessage (wrapInt64 (s2.doc.Revision + 1)) s2.doc.Data clientID
                (clientNameOf s2.conns wsConn))) }) := rfl
  rw [hdef]
  cases updateDocument Unmarshal (withData s message.Data) wsConn <;> rfl

/-- The data branch run without interruption is its first critical section followed by its
second. -/
theorem readLoop_data_split (Unmarshal : String → MessageConfigType × Bool) (s : State)
    (clientID : String) (wsConn : Nat) (message : MessageType) :
    readLoop.data Unmarshal s clientID wsConn message
      = (readLoop.data.mutate Unmarshal s wsConn message).map
          (fun s1 => readLoop.data.broadcast s1 clientID wsConn) := by
  have h1 : readLoop.data Unmarshal s clientID wsConn message
      = (updateDocument Unmarshal (withData s message.Data) wsConn).bind (fun s2 =>
          some (readLoop.data.broadcast
            { s2 with doc := { s2.doc with Revision := wrapInt64 (s2.doc.Revision + 1) } }
            clientID wsConn)) := rfl
  have h2 : readLoop.data.mutate Unmarshal s wsConn message
      = (updateDocument Unmarshal (withData s message.Data) wsConn).bind (fun s2 =>
          some { s2 with doc := { s2.doc with Revision := wrapInt64 (s2.doc.Revision + 1) } }) :=
    rfl
  rw [h1, h2]
  cases updateDocument Unmarshal (withData s message.Data) wsConn <;> rfl

/-- The first critical section of the data branch, when it completes: the state
`updateDocument` leaves, with the payload stored and the revision incremented. -/
theorem readLoop_data_mutate_eq {Unmarshal : String → MessageConfigType × Bool} {s s1 : State}
    {wsConn : Nat} {message : MessageType}
    (hrun : readLoop.data.mutate Unmarshal s wsConn message = some s1) :
    ∃ s2, updateDocument Unmarshal (withData s message.Data) wsConn = some s2 ∧
      s1.doc = { s.doc with Data := message.Data, Revision := wrapInt64 (s.doc.Revision + 1) } ∧
      s1.heap = s2.heap ∧ s1.conns = s2.conns ∧ s1.events = s.events := by
  unfold readLoop.data.mutate at hrun
  simp only [Option.bind_eq_bind, Option.bind_eq_some] at hrun
  obtain ⟨s2, h2, hs'⟩ := hrun
  cases hs'
  obtain ⟨hdoc, hev⟩ := updateDocument_doc h2
  refine ⟨s2, h2, ?_, rfl, rfl, ?_⟩
  · simp only [hdoc]
  · simp only [hev]

/-- Reading the name of a connection whose record is at hand. -/
theorem clientNameOf_eq {conns : List wsConnection} {wsConn : Nat} {conn : wsConnection}
    (hconn : conns[wsConn]? = some conn) : clientNameOf conns wsConn = conn.ClientName := by
  simp [clientNameOf, hconn]

/-- C5 (amended): for a data message with payload P from a registered sender whose record is
at hand, on a session whose revision r is an `int64` below the largest one: when the first
critical section of the data branch completes, the relay snapshot `doc.Data` is P, the
revision is r + 1, and client map and events are as before. When the second critical
section follows with nothing in between, which is the data branch run as a whole, it adds
exactly one `WriteJSON` per entry of the client map, the sender's own connection among
them, each with the envelope of type `data`, revision r + 1, data P and the sender's
client id and display name. Whenever it runs, on whatever the session has become by then,
it adds one `WriteJSON` per entry of the client map of that moment, with the revision and
the relay snapshot of that moment and the sender's id and name, and changes nothing else. -/
theorem data_broadcast (Unmarshal : String → MessageConfigType × Bool) (s s1 : State)
    (clientID : String) (wsConn : Nat) (conn : wsConnection) (message : MessageType)
    (hrun : readLoop.data.mutate Unmarshal s wsConn message = some s1)
    (hlo : minInt64 ≤ s.doc.Revision) (hhi : s.doc.Revision < maxInt64)
    (hreg : s.doc.Clients.lookup clientID = some wsConn)
    (hconn : s.conns[wsConn]? = some conn) :
    (s1.doc.Data = message.Data ∧ s1.doc.Revision = s.doc.Revision + 1 ∧
      s1.doc.Clients = s.doc.Clients ∧ s1.events = s.events) ∧
    readLoop.data Unmarshal s clientID wsConn message
      = some (readLoop.data.broadcast s1 clientID wsConn) ∧
    (readLoop.data.broadcast s1 clientID wsConn).events
      = s.events ++ s.doc.Clients.entries.map (fun e => Event.WriteJSON e.2
          { Type_ := "data", Revision := s.doc.Revision + 1, Data := message.Data,
            ClientName := conn.ClientName, ClientID := clientID, Clients := [] }) ∧
    Event.WriteJSON wsConn
        { Type_ := "data", Revision := s.doc.Revision + 1, Data := message.Data,
          ClientName := conn.ClientName, ClientID := clientID, Clients := [] }
      ∈ (readLoop.data.broadcast s1 clientID wsConn).events ∧
    (∀ s2 conn2, s2.conns[wsConn]? = some conn2 →
      (readLoop.data.broadcast s2 clientID wsConn).events
        = s2.events ++ s2.doc.Clients.entries.map (fun e => Event.WriteJSON e.2
            { Type_ := "data", Revision := s2.doc.Revision, Data := s2.doc.Data,
              ClientName := conn2.ClientName, ClientID := clientID, Clients := [] }) ∧
      (readLoop.data.broadcast s2 clientID wsConn).doc = s2.doc ∧
      (readLoop.data.broadcast s2 clientID wsConn).heap = s2.heap ∧
      (readLoop.data.broadcast s2 clientID wsConn).conns = s2.conns) := by
  obtain ⟨s2, h2, hdoc, _, hconns, hev⟩ := readLoop_data_mutate_eq hrun
  have hw : wrapInt64 (s.doc.Revision + 1) = s.doc.Revision + 1 :=
    wrapInt64_of_range (by omega) (by omega)
  rw [hw] at hdoc
  have hname1 : clientNameOf s1.conns wsConn = conn.ClientName := by
    rw [hconns, updateDocument_clientNameOf h2 wsConn]
    exact clientNameOf_eq hconn
  have hgen : ∀ s2 : State, ∀ conn2 : wsConnection, s2.conns[wsConn]? = some conn2 →
      (readLoop.data.broadcast s2 clientID wsConn).events
        = s2.events ++ s2.doc.Clients.entries.map (fun e => Event.WriteJSON e.2
            { Type_ := "data", Revision := s2.doc.Revision, Data := s2.doc.Data,
              ClientName := conn2.ClientName, ClientID := clientID, Clients := [] }) := by
    intro s2 conn2 hc2
    simp only [readLoop.data.broadcast, dataMessage, clientNameOf_eq hc2]
  have hev1 : (readLoop.data.broadcast s1 clientID wsConn).events
      = s.events ++ s.doc.Clients.entries.map (fun e => Event.WriteJSON e.2
          { Type_ := "data", Revision := s.doc.Revision + 1, Data := message.Data,
            ClientName := conn.ClientName, ClientID := clientID, Clients := [] }) := by
    simp only [readLoop.data.broadcast, dataMessage, hname1, hdoc, hev]
  refine ⟨⟨by rw [hdoc], by rw [hdoc], by rw [hdoc], hev⟩, ?_, hev1, ?_, ?_⟩
  · rw [readLoop_data_split, hrun]
    rfl
  · rw [hev1]
    apply List.mem_append_right
    have hmem : (⟨clientID, wsConn⟩ : Sigma fun _ : String => Nat) ∈ s.doc.Clients.entries :=
      AList.mem_lookup_iff.mp hreg
    exact List.mem_map.mpr ⟨⟨clientID, wsConn⟩, hmem, rfl⟩
  · intro s2 conn2 hc2
    exact ⟨hgen s2 conn2 hc2, rfl, rfl, rfl⟩

/-- The theorem `data_broadcast` on `demoSession`: an edit from `A`, run as a whole, is
written once to the connection of `B` and once to the connection of `A`, with revision 1. -/
theorem data_broadcast_witness :
    minInt64 ≤ demoSession.doc.Revision ∧ demoSession.doc.Revision < maxInt64 ∧
      demoSession.doc.Clients.lookup "A" = some 0 ∧
      (demoSession.conns[0]?).map (fun c => c.ClientName) = some "Emma" ∧
      (readLoop.data demoUnmarshal demoSession "A" 0 (dataMsg editPayload)).map
        (fun s' => (s'.doc.Data, s'.doc.Revision, s'.events))
        = some (editPayload, 1,
          [Event.WriteJSON 1
            { Type_ := "data", Revision := 1, Data := editPayload, ClientName := "Emma",
              ClientID := "A", Clients := [] },
           Event.WriteJSON 0
            { Type_ := "data", Revision := 1, Data := editPayload, ClientName := "Emma",
              ClientID := "A", Clients := [] }]) := by
  have hsome : (readLoop.data.mutate demoUnmarshal demoSession 0 (dataMsg editPayload)).isSome
      = true := by decide
  obtain ⟨s1, hs1⟩ := Option.isSome_iff_exists.mp hsome
  obtain ⟨⟨hdata, hrev, _, _⟩, hfused, hev, _, _⟩ := data_broadcast demoUnmarshal demoSession s1
    "A" 0 { ClientName := "Emma", SelectionActionData := ISheetActionData.zero }
    (dataMsg editPayload) hs1 (by decide) (by decide) (by decide) rfl
  refine ⟨by decide, by decide, by decide, by decide, ?_⟩
  rw [hfused]
  have hd : (readLoop.data.broadcast s1 "A" 0).doc = s1.doc := rfl
  simp only [Option.map_some', hd, hdata, hrev, hev]
  rfl

/-- C5 as stated fails when another sender's first critical section falls between the two
critical sections of this one: on `demoSession`, at revision 0, `A` stores its edit, `B`
stores a selection update, then `A` broadcasts. The envelopes that `A` writes carry
revision 2 and the payload of `B`, not revision 1 and the payload of `A`. -/
theorem data_broadcast_counterexample :
    demoSession.doc.Revision + 1 = 1 ∧ editPayload ≠ selectPayload ∧
      (runActs demoUnmarshal demoSession
        [Act.mutate "A" 0 (dataMsg editPayload), Act.mutate "B" 1 (dataMsg selectPayload),
         Act.broadcast "A" 0]).map (fun s' => s'.events)
        = some
          [Event.WriteJSON 1
            { Type_ := "data", Revision := 2, Data := selectPayload, ClientName := "Emma",
              ClientID := "A", Clients := [] },
           Event.WriteJSON 0
            { Type_ := "data", Revision := 2, Data := selectPayload, ClientName := "Emma",
              ClientID := "A", Clients := [] }] := by
  refine ⟨by decide, by decide, rfl⟩

/-- The revision in the envelope wraps with the counter: on `saturatedSession`, whose revision
r is 9223372036854775807, the data branch writes envelopes of revision
-9223372036854775808, not r + 1. -/
theorem data_broadcast_wraps :
    (readLoop.data demoUnmarshal saturatedSession "A" 0 (dataMsg otherPayload)).map
        (fun s' => s'.events)
        = some
          [Event.WriteJSON 1
            { Type_ := "data", Revision := -9223372036854775808, Data := otherPayload,
              ClientName := "Emma", ClientID := "A", Clients := [] },
           Event.WriteJSON 0
            { Type_ := "data", Revision := -9223372036854775808, Data := otherPayload,
              ClientName := "Emma", ClientID := "A", Clients := [] }] ∧
      (-9223372036854775808 : Int) ≠ saturatedSession.doc.Revision + 1 := by
  constructor
  · rfl
  · decide

/-! ## Teardown and flush -/

/-- The initial sync changes events only. -/
theorem sendDocumentData_frame (s : State) (clientID : String) (wsConn : Nat) (writeErr : Bool) :
    (sendDocumentData s clientID wsConn writeErr).doc = s.doc ∧
      (sendDocumentData s clientID wsConn writeErr).heap = s.heap ∧
      (sendDocumentData s clientID wsConn writeErr).conns = s.conns := by
  cases writeErr <;> exact ⟨rfl, rfl, rfl⟩

/-- The two teardown sites run the same sequence. -/
theorem writeLoop_close_eq (s : State) (clientID : String) (wsConn : Nat) (dbErr : Bool) :
    writeLoop.close s clientID wsConn dbErr = readLoop.disconnect s clientID wsConn dbErr :=
  rfl

/-- Writes to sockets are not flushes. -/
theorem countP_isSave_writes (l : List (Sigma fun _ : String => Nat)) (message : MessageType) :
    (l.map (fun e => Event.WriteJSON e.2 message)).countP Event.isSave = 0 := by
  induction l with
  | nil => rfl
  | cons e t ih => simp [List.countP_cons, Event.isSave, ih]

/-- The teardown, spelled out: the client's entry is deleted, one `offline` envelope is
written per remaining connection, and `saveDocument` is called exactly when no entry is
left; the call panics when the database update fails. -/
theorem readLoop_disconnect_eq (s : State) (clientID : String) (wsConn : Nat) (dbErr : Bool) :
    readLoop.disconnect s clientID wsConn dbErr =
      if (s.doc.Clients.erase clientID).entries.length = 0 then
        (if dbErr then none else some
          { s with
            doc := { s.doc with Clients := s.doc.Clients.erase clientID },
            events := (s.events ++ (s.doc.Clients.erase clientID).entries.map
              (fun e => Event.WriteJSON e.2
                (offlineMessage clientID (clientNameOf s.conns wsConn)))) ++
              [Event.saveDocument s.doc.DocsId s.doc.DocsConfig s.heap] })
      else some
          { s with
            doc := { s.doc with Clients := s.doc.Clients.erase clientID },
            events := s.events ++ (s.doc.Clients.erase clientID).entries.map
              (fun e => Event.WriteJSON e.2
                (offlineMessage clientID (clientNameOf s.conns wsConn))) } := by
  rfl

/-- A teardown, when the database update succeeds, calls `saveDocument` once if the client
map is empty after the delete and not at all otherwise. -/
theorem flushes_disconnect (s : State) (clientID : String) (wsConn : Nat) :
    ∃ s', readLoop.disconnect s clientID wsConn false = some s' ∧
      s'.doc.Clients = s.doc.Clients.erase clientID ∧
      flushes s' = flushes s +
        (if (s.doc.Clients.erase clientID).entries.length = 0 then 1 else 0) := by
  rw [readLoop_disconnect_eq]
  by_cases h0 : (s.doc.Clients.erase clientID).entries.length = 0
  · simp only [h0, if_true, Bool.false_eq_true, if_false]
    refine ⟨_, rfl, rfl, ?_⟩
    simp [flushes, List.countP_append, countP_isSave_writes, Event.isSave]
  · simp only [h0, if_false]
    refine ⟨_, rfl, rfl, ?_⟩
    simp only [flushes, List.countP_append, countP_isSave_writes]

/-- The initial sync and the registration call no `saveDocument`. -/
theorem flushes_handleWebSocket (s : State) (clientID clientName : String) (writeErr : Bool) :
    flushes (handleWebSocket s clientID clientName writeErr) = flushes s := by
  unfold handleWebSocket sendDocumentData register flushes
  cases writeErr <;> simp [List.countP_append, Event.isSave]

/-- Deleting the only entry of a map leaves none. -/
theorem erase_only {V : Type} (m : GoMap V) (k : String) (v : V)
    (hone : m.entries.length = 1) (hk : m.lookup k = some v) : (m.erase k).entries.length = 0 := by
  have hmem : k ∈ m.keys := AList.mem_keys.mp (AList.lookup_isSome.mp (by simp [hk]))
  have hlen : (m.erase k).keys.length = m.keys.length - 1 := by
    rw [AList.keys_erase]
    exact List.length_erase_of_mem hmem
  have h1 : m.keys.length = 1 := by
    simpa [AList.keys, List.keys] using hone
  have h2 : (m.erase k).entries.length = (m.erase k).keys.length := by
    simp [AList.keys, List.keys]
  omega

/-- Deleting from a map with no entry leaves none. -/
theorem erase_none {V : Type} (m : GoMap V) (k : String)
    (h0 : m.entries.length = 0) : (m.erase k).entries.length = 0 := by
  have hlen : (m.erase k).keys.length ≤ m.keys.length := by
    rw [AList.keys_erase]
    exact List.length_erase_le _ _
  have h1 : m.keys.length = 0 := by
    simpa [AList.keys, List.keys] using h0
  have h2 : (m.erase k).entries.length = (m.erase k).keys.length := by
    simp [AList.keys, List.keys]
  omega

/-- Deleting a registered client removes one entry. -/
theorem erase_length {V : Type} (m : GoMap V) (k : String) (v : V)
    (hk : m.lookup k = some v) : (m.erase k).entries.length + 1 = m.entries.length := by
  have hmem : k ∈ m.keys := AList.mem_keys.mp (AList.lookup_isSome.mp (by simp [hk]))
  have hlen : (m.erase k).keys.length = m.keys.length - 1 := by
    rw [AList.keys_erase]
    exact List.length_erase_of_mem hmem
  have hpos : 0 < m.keys.length := List.length_pos_of_mem hmem
  have h1 : m.keys.length = m.entries.length := by
    simp [AList.keys, List.keys]
  have h2 : (m.erase k).entries.length = (m.erase k).keys.length := by
    simp [AList.keys, List.keys]
  omega

/-- An entry that remains after deleting a client was in the map, under another id. -/
theorem mem_erase_entries {V : Type} (m : GoMap V) (k : String) (e : Sigma fun _ : String => V)
    (he : e ∈ (m.erase k).entries) : e ∈ m.entries ∧ e.1 ≠ k := by
  rcases e with ⟨k', v⟩
  have hl : (m.erase k).lookup k' = some v := AList.mem_lookup_iff.mpr he
  have hne : k' ≠ k := by
    intro heq
    subst heq
    rw [AList.lookup_erase] at hl
    cases hl
  rw [AList.lookup_erase_ne hne] at hl
  exact ⟨AList.mem_lookup_iff.mp hl, hne⟩

/-- A teardown run without interruption is its critical section followed by its length read;
the same holds at the site in `writeLoop`. -/
theorem readLoop_disconnect_split (s : State) (clientID : String) (wsConn : Nat) (dbErr : Bool) :
    readLoop.disconnect s clientID wsConn dbErr
        = readLoop.disconnect.check (readLoop.disconnect.locked s clientID wsConn) dbErr ∧
      writeLoop.close s clientID wsConn dbErr
        = readLoop.disconnect.check (readLoop.disconnect.locked s clientID wsConn) dbErr :=
  ⟨rfl, rfl⟩

/-- The critical section of a teardown, spelled out. -/
theorem readLoop_disconnect_locked_eq (s : State) (clientID : String) (wsConn : Nat) :
    readLoop.disconnect.locked s clientID wsConn =
      { s with
        doc := { s.doc with Clients := s.doc.Clients.erase clientID },
        events := s.events ++ (s.doc.Clients.erase clientID).entries.map
          (fun e => Event.WriteJSON e.2
            (offlineMessage clientID (clientNameOf s.conns wsConn))) } :=
  rfl

/-- The length read of a teardown, when the database update succeeds: one call of
`saveDocument`, with the config as it is, when the client map is empty, and nothing
otherwise. A failing update makes the call panic. -/
theorem readLoop_disconnect_check_eq (s : State) :
    (s.doc.Clients.entries.length ≠ 0 → ∀ dbErr, readLoop.disconnect.check s dbErr = some s) ∧
    (s.doc.Clients.entries.length = 0 →
      readLoop.disconnect.check s false = some { s with
        events := s.events ++ [Event.saveDocument s.doc.DocsId s.doc.DocsConfig s.heap] } ∧
      readLoop.disconnect.check s true = none) := by
  constructor
  · intro h dbErr
    simp only [readLoop.disconnect.check, if_neg h]
  · intro h
    constructor
    · simp only [readLoop.disconnect.check, if_pos h, saveDocument]
      rfl
    · simp only [readLoop.disconnect.check, if_pos h, saveDocument]
      rfl

/-- A step calls `saveDocument` once when it is a length read that finds the client map
empty, and not at all otherwise. -/
theorem flushes_act {Unmarshal : String → MessageConfigType × Bool} {s s' : State} {a : Act}
    (hrun : a.run Unmarshal s = some s') : flushes s' = flushes s + a.emptyCheck s := by
  cases a with
  | register cid name =>
    simp only [Act.run, Option.some.injEq] at hrun
    subst hrun
    rfl
  | sendDocument cid ws =>
    simp only [Act.run, Option.some.injEq] at hrun
    subst hrun
    simp [Act.emptyCheck, flushes, sendDocumentData.document, List.countP_append, Event.isSave]
  | sendClients ws =>
    simp only [Act.run, Option.some.injEq] at hrun
    subst hrun
    simp [Act.emptyCheck, flushes, sendDocumentData.clients, List.countP_append, Event.isSave]
  | mutate cid ws message =>
    simp only [Act.run] at hrun
    obtain ⟨_, _, _, _, _, hev⟩ := readLoop_data_mutate_eq hrun
    simp only [Act.emptyCheck, Nat.add_zero, flushes, hev]
  | broadcast cid ws =>
    simp only [Act.run, Option.some.injEq] at hrun
    subst hrun
    simp only [Act.emptyCheck, Nat.add_zero, flushes, readLoop.data.broadcast,
      List.countP_append, countP_isSave_writes]
  | delete cid ws =>
    simp only [Act.run, Option.some.injEq] at hrun
    subst hrun
    simp only [Act.emptyCheck, Nat.add_zero, flushes, readLoop_disconnect_locked_eq,
      List.countP_append, countP_isSave_writes]
  | lengthCheck cid dbErr =>
    simp only [Act.run] at hrun
    by_cases h0 : s.doc.Clients.entries.length = 0
    · cases dbErr with
      | true =>
        rw [((readLoop_disconnect_check_eq s).2 h0).2] at hrun
        cases hrun
      | false =>
        rw [((readLoop_disconnect_check_eq s).2 h0).1] at hrun
        cases hrun
        simp [Act.emptyCheck, h0, flushes, List.countP_append, Event.isSave]
    · rw [(readLoop_disconnect_check_eq s).1 h0 dbErr] at hrun
      cases hrun
      simp [Act.emptyCheck, h0]

/-- Along an interleaving that completes, `saveDocument` is called once by every length read
that finds the client map empty, and by nothing else. -/
theorem flushes_runActs (Unmarshal : String → MessageConfigType × Bool) (acts : List Act)
    (s s' : State) (hrun : runActs Unmarshal s acts = some s') :
    flushes s' = flushes s + emptyChecks Unmarshal s acts := by
  induction acts generalizing s with
  | nil =>
    simp only [runActs, List.foldlM_nil] at hrun
    cases hrun
    rfl
  | cons a rest ih =>
    simp only [runActs, List.foldlM_cons, Option.bind_eq_bind, Option.bind_eq_some] at hrun
    obtain ⟨s1, h1, hrest⟩ := hrun
    have hstep := flushes_act h1
    have := ih s1 hrest
    simp only [emptyChecks, h1]
    omega

/-- An interleaving runs its first step, then the rest. -/
theorem runActs_cons (Unmarshal : String → MessageConfigType × Bool) (s : State) (a : Act)
    (rest : List Act) :
    runActs Unmarshal s (a :: rest)
      = (a.run Unmarshal s).bind (fun s1 => runActs Unmarshal s1 rest) :=
  rfl

/-- The empty interleaving leaves the session as it is. -/
theorem runActs_nil (Unmarshal : String → MessageConfigType × Bool) (s : State) :
    runActs Unmarshal s [] = some s :=
  rfl

/-- The critical section of a teardown deletes the client and calls no `saveDocument`. -/
theorem locked_clients_flushes (s : State) (clientID : String) (wsConn : Nat) :
    (readLoop.disconnect.locked s clientID wsConn).doc.Clients = s.doc.Clients.erase clientID ∧
      flushes (readLoop.disconnect.locked s clientID wsConn) = flushes s := by
  refine ⟨rfl, ?_⟩
  simp only [flushes, readLoop_disconnect_locked_eq, List.countP_append, countP_isSave_writes,
    Nat.add_zero]

/-- The length read of a teardown that finds the client map empty, the database update
succeeding: one more flush, the client map as it was. -/
theorem check_empty (s : State) (h0 : s.doc.Clients.entries.length = 0) :
    ∃ s', readLoop.disconnect.check s false = some s' ∧ s'.doc.Clients = s.doc.Clients ∧
      flushes s' = flushes s + 1 := by
  refine ⟨_, ((readLoop_disconnect_check_eq s).2 h0).1, rfl, ?_⟩
  simp [flushes, List.countP_append, Event.isSave]

/-- C6 (amended): over the interleavings of registrations, critical sections of the data
branch, and the two parts of a teardown (the delete under the lock, then the read of
`len(doc.Clients)` after the lock is released), an interleaving that completes has called
`saveDocument` once for every length read that found the client map empty, and never
otherwise. So, with the database update succeeding: the teardown of the only client, with
nothing in between, flushes exactly once; when the last two clients have both been deleted
before either teardown reads the length, the client map has gone from size 1 to size 0
once and `saveDocument` is called twice; and when a registration falls between the delete
of the only client and its length read, it is not called at all. -/
theorem flushes_of_run (Unmarshal : String → MessageConfigType × Bool) (acts : List Act)
    (s s' : State) (hrun : runActs Unmarshal s acts = some s') :
    flushes s' = flushes s + emptyChecks Unmarshal s acts ∧
    (∀ (t : State) (A : String) (wsA : Nat), t.doc.Clients.entries.length = 1 →
      t.doc.Clients.lookup A = some wsA →
      (runActs Unmarshal t [Act.delete A wsA, Act.lengthCheck A false]).map
        (fun t' => (t'.doc.Clients.entries.length, flushes t')) = some (0, flushes t + 1)) ∧
    (∀ (t : State) (A B : String) (wsA wsB : Nat), t.doc.Clients.entries.length = 2 →
      A ≠ B → t.doc.Clients.lookup A = some wsA → t.doc.Clients.lookup B = some wsB →
      (runActs Unmarshal t [Act.delete A wsA, Act.delete B wsB]).map
        (fun t' => (t'.doc.Clients.entries.length, flushes t')) = some (0, flushes t) ∧
      (runActs Unmarshal t [Act.delete A wsA, Act.delete B wsB, Act.lengthCheck A false,
        Act.lengthCheck B false]).map
        (fun t' => (t'.doc.Clients.entries.length, flushes t')) = some (0, flushes t + 2)) ∧
    (∀ (t : State) (A C name : String) (wsA : Nat),
      t.doc.Clients.entries.length = 1 → t.doc.Clients.lookup A = some wsA →
      (runActs Unmarshal t [Act.delete A wsA, Act.register C name,
        Act.lengthCheck A false]).map
        (fun t' => (t'.doc.Clients.entries.length, flushes t')) = some (1, flushes t)) := by
  refine ⟨flushes_runActs Unmarshal acts s s' hrun, ?_, ?_, ?_⟩
  · intro t A wsA hone hreg
    obtain ⟨hc1, hf1⟩ := locked_clients_flushes t A wsA
    have he1 : (readLoop.disconnect.locked t A wsA).doc.Clients.entries.length = 0 := by
      rw [hc1]
      exact erase_only t.doc.Clients A wsA hone hreg
    obtain ⟨t2, hrun2, hc2, hf2⟩ := check_empty _ he1
    simp only [runActs_cons, runActs_nil, Act.run, Option.bind_eq_bind,
      Option.some_bind, hrun2, Option.map_some', Option.bind_some, hc2, he1, hf2, hf1]
  · intro t A B wsA wsB htwo hne hA hB
    obtain ⟨hc1, hf1⟩ := locked_clients_flushes t A wsA
    have hB1 : (readLoop.disconnect.locked t A wsA).doc.Clients.lookup B = some wsB := by
      rw [hc1, AList.lookup_erase_ne (Ne.symm hne)]
      exact hB
    have hl1 : (readLoop.disconnect.locked t A wsA).doc.Clients.entries.length = 1 := by
      have := erase_length t.doc.Clients A wsA hA
      rw [hc1]
      omega
    obtain ⟨hc2, hf2⟩ := locked_clients_flushes (readLoop.disconnect.locked t A wsA) B wsB
    have he2 : (readLoop.disconnect.locked (readLoop.disconnect.locked t A wsA) B wsB).doc.Clients.entries.length
        = 0 := by
      rw [hc2]
      exact erase_only _ B wsB hl1 hB1
    obtain ⟨t3, hrun3, hc3, hf3⟩ := check_empty _ he2
    have he3 : t3.doc.Clients.entries.length = 0 := by
      rw [hc3]
      exact he2
    obtain ⟨t4, hrun4, hc4, hf4⟩ := check_empty _ he3
    have he4 : t4.doc.Clients.entries.length = 0 := by
      rw [hc4]
      exact he3
    constructor
    · simp only [runActs_cons, runActs_nil, Act.run, Option.bind_eq_bind,
        Option.some_bind, Option.map_some', Option.bind_some, he2, hf2, hf1]
    · simp only [runActs_cons, runActs_nil, Act.run, Option.bind_eq_bind,
        Option.some_bind, hrun3, hrun4, Option.map_some', Option.bind_some, he4, hf4, hf3, hf2,
        hf1]
  · intro t A C name wsA hone hreg
    obtain ⟨hc1, hf1⟩ := locked_clients_flushes t A wsA
    have he1 : (readLoop.disconnect.locked t A wsA).doc.Clients.entries.length = 0 := by
      rw [hc1]
      exact erase_only t.doc.Clients A wsA hone hreg
    have hnil : (readLoop.disconnect.locked t A wsA).doc.Clients.entries = [] :=
      List.length_eq_zero.mp he1
    have hl2 : (register (readLoop.disconnect.locked t A wsA) C name).1.doc.Clients.entries.length
        = 1 := by
      simp [register, AList.insert_entries, hnil]
    have hf2 : flushes (register (readLoop.disconnect.locked t A wsA) C name).1
        = flushes (readLoop.disconnect.locked t A wsA) := rfl
    have hcheck := (readLoop_disconnect_check_eq
      (register (readLoop.disconnect.locked t A wsA) C name).1).1 (by omega) false
    simp only [runActs_cons, runActs_nil, Act.run, Option.bind_eq_bind,
      Option.some_bind, hcheck, Option.map_some', Option.bind_some, hl2, hf2, hf1]

/-- The theorem `flushes_of_run` on `demoSession` (both deletes, then both length reads: two
reads find the map empty, two flushes) and on `soloSession` (one teardown: one flush). -/
theorem flushes_of_run_witness :
    (runActs demoUnmarshal demoSession [Act.delete "A" 0, Act.delete "B" 1,
        Act.lengthCheck "A" false, Act.lengthCheck "B" false]).map flushes
      = some (flushes demoSession + emptyChecks demoUnmarshal demoSession
          [Act.delete "A" 0, Act.delete "B" 1, Act.lengthCheck "A" false,
           Act.lengthCheck "B" false]) ∧
      emptyChecks demoUnmarshal demoSession [Act.delete "A" 0, Act.delete "B" 1,
        Act.lengthCheck "A" false, Act.lengthCheck "B" false] = 2 ∧
      soloSession.doc.Clients.entries.length = 1 ∧ soloSession.doc.Clients.lookup "A" = some 0 ∧
      (runActs demoUnmarshal soloSession [Act.delete "A" 0, Act.lengthCheck "A" false]).map
        (fun t' => (t'.doc.Clients.entries.length, flushes t')) = some (0, 1) := by
  have hsome : (runActs demoUnmarshal demoSession [Act.delete "A" 0, Act.delete "B" 1,
      Act.lengthCheck "A" false, Act.lengthCheck "B" false]).isSome = true := by decide
  obtain ⟨s', hs'⟩ := Option.isSome_iff_exists.mp hsome
  obtain ⟨hlaw, hone, _, _⟩ := flushes_of_run demoUnmarshal _ demoSession s' hs'
  refine ⟨?_, by decide, by decide, by decide, ?_⟩
  · rw [hs']
    exact congrArg some hlaw
  · have := hone soloSession "A" 0 (by decide) (by decide)
    rw [this]
    decide

/-- C6 as stated fails, on read-path teardowns alone: on `demoSession` the connections of
`A` and `B` both fail. The delete of `A` leaves one client, the delete of `B` takes the
client map from size 1 to size 0, and then the length read of `A` and the length read of
`B` each find it empty and each call `saveDocument`: two flushes for the one transition. -/
theorem double_flush_counterexample :
    demoSession.doc.Clients.entries.length = 2 ∧ flushes demoSession = 0 ∧
      (runActs demoUnmarshal demoSession [Act.delete "A" 0]).map
        (fun t' => (t'.doc.Clients.entries.length, flushes t')) = some (1, 0) ∧
      (runActs demoUnmarshal demoSession [Act.delete "A" 0, Act.delete "B" 1]).map
        (fun t' => (t'.doc.Clients.entries.length, flushes t')) = some (0, 0) ∧
      (runActs demoUnmarshal demoSession [Act.delete "A" 0, Act.delete "B" 1,
        Act.lengthCheck "A" false]).map
        (fun t' => (t'.doc.Clients.entries.length, flushes t')) = some (0, 1) ∧
      (runActs demoUnmarshal demoSession [Act.delete "A" 0, Act.delete "B" 1,
        Act.lengthCheck "A" false, Act.lengthCheck "B" false]).map
        (fun t' => (t'.doc.Clients.entries.length, flushes t')) = some (0, 2) := by
  decide

/-- C7 (amended): on a session with at least two registered clients, for a registered client
`A` whose record is at hand. The critical section of the teardown of `A` removes exactly
`A` from the client map (one entry fewer, every other id as before), writes one envelope of
type `offline` with the id and display name of `A` to the connection of each remaining
entry and nothing else, where no remaining entry is that of `A` (nor, the client map being
well formed, holds the connection of `A`), calls no `saveDocument`, and leaves revision,
relay snapshot, config, map objects and connection records as they are. The length read
that follows calls no `saveDocument` when the client map is not empty at that moment, as
it is when nothing runs in between, by the read path or the write path and whatever the
database would answer; it calls `saveDocument` once when the map is empty by then. -/
theorem teardown_with_peers (s : State) (A : String) (wsConn : Nat) (conn : wsConnection)
    (dbErr : Bool) (htwo : 2 ≤ s.doc.Clients.entries.length)
    (hreg : s.doc.Clients.lookup A = some wsConn) (hconn : s.conns[wsConn]? = some conn) :
    ((readLoop.disconnect.locked s A wsConn).doc.Clients = s.doc.Clients.erase A ∧
      (readLoop.disconnect.locked s A wsConn).doc.Clients.entries.length + 1
        = s.doc.Clients.entries.length ∧
      (readLoop.disconnect.locked s A wsConn).doc.Clients.lookup A = none ∧
      (∀ k, k ≠ A → (readLoop.disconnect.locked s A wsConn).doc.Clients.lookup k
        = s.doc.Clients.lookup k)) ∧
    ((readLoop.disconnect.locked s A wsConn).events
        = s.events ++ (s.doc.Clients.erase A).entries.map (fun e => Event.WriteJSON e.2
            { Type_ := "offline", Revision := 0, Data := "", ClientName := conn.ClientName,
              ClientID := A, Clients := [] }) ∧
      (∀ e ∈ (s.doc.Clients.erase A).entries, e.1 ≠ A) ∧
      (s.ClientsWF → ∀ e ∈ (s.doc.Clients.erase A).entries, e.2 ≠ wsConn) ∧
      flushes (readLoop.disconnect.locked s A wsConn) = flushes s) ∧
    ((readLoop.disconnect.locked s A wsConn).doc.Revision = s.doc.Revision ∧
      (readLoop.disconnect.locked s A wsConn).doc.Data = s.doc.Data ∧
      (readLoop.disconnect.locked s A wsConn).doc.DocsConfig = s.doc.DocsConfig ∧
      (readLoop.disconnect.locked s A wsConn).heap = s.heap ∧
      (readLoop.disconnect.locked s A wsConn).conns = s.conns) ∧
    (readLoop.disconnect.check (readLoop.disconnect.locked s A wsConn) dbErr
        = some (readLoop.disconnect.locked s A wsConn) ∧
      readLoop.disconnect s A wsConn dbErr = some (readLoop.disconnect.locked s A wsConn) ∧
      writeLoop.close s A wsConn dbErr = some (readLoop.disconnect.locked s A wsConn)) ∧
    (∀ t : State, t.doc.Clients.entries.length ≠ 0 →
      readLoop.disconnect.check t dbErr = some t) ∧
    (∀ t : State, t.doc.Clients.entries.length = 0 →
      readLoop.disconnect.check t false = some { t with
        events := t.events ++ [Event.saveDocument t.doc.DocsId t.doc.DocsConfig t.heap] }) := by
  have hlen := erase_length s.doc.Clients A wsConn hreg
  have hne : (readLoop.disconnect.locked s A wsConn).doc.Clients.entries.length ≠ 0 := by
    have : (readLoop.disconnect.locked s A wsConn).doc.Clients = s.doc.Clients.erase A := rfl
    rw [this]
    omega
  have hcheck := (readLoop_disconnect_check_eq (readLoop.disconnect.locked s A wsConn)).1 hne
    dbErr
  refine ⟨⟨rfl, hlen, AList.lookup_erase A s.doc.Clients, fun k hk => AList.lookup_erase_ne hk⟩,
    ⟨?_, fun e he => (mem_erase_entries s.doc.Clients A e he).2, ?_,
      (locked_clients_flushes s A wsConn).2⟩,
    ⟨rfl, rfl, rfl, rfl, rfl⟩,
    ⟨hcheck, (readLoop_disconnect_split s A wsConn dbErr).1.trans hcheck,
      (readLoop_disconnect_split s A wsConn dbErr).2.trans hcheck⟩,
    fun t ht => (readLoop_disconnect_check_eq t).1 ht dbErr,
    fun t ht => ((readLoop_disconnect_check_eq t).2 ht).1⟩
  · simp only [readLoop_disconnect_locked_eq, offlineMessage, clientNameOf_eq hconn]
  · intro hwf e he heq
    obtain ⟨hmem, hk⟩ := mem_erase_entries s.doc.Clients A e he
    have hA : (⟨A, wsConn⟩ : Sigma fun _ : String => Nat) ∈ s.doc.Clients.entries :=
      AList.mem_lookup_iff.mp hreg
    have := List.inj_on_of_nodup_map hwf.1 hmem hA heq
    exact hk (congrArg Sigma.fst this)

/-- The theorem `teardown_with_peers` on `demoSession`: the teardown of `A`, run as a whole,
leaves `B` registered and writes one `offline` envelope, to the connection of `B`. -/
theorem teardown_with_peers_witness :
    2 ≤ demoSession.doc.Clients.entries.length ∧ demoSession.doc.Clients.lookup "A" = some 0 ∧
      (demoSession.conns[0]?).map (fun c => c.ClientName) = some "Emma" ∧
      (readLoop.disconnect demoSession "A" 0 false).map
        (fun s' => (s'.doc.Clients.lookup "A", s'.doc.Clients.lookup "B", s'.events))
        = some (none, some 1,
          [Event.WriteJSON 1
            { Type_ := "offline", Revision := 0, Data := "", ClientName := "Emma",
              ClientID := "A", Clients := [] }]) := by
  obtain ⟨⟨_, _, hA, hB⟩, ⟨hev, _, _, _⟩, _, ⟨_, hfused, _⟩, _, _⟩ :=
    teardown_with_peers demoSession "A" 0
      { ClientName := "Emma", SelectionActionData := ISheetActionData.zero } false
      (by decide) (by decide) rfl
  refine ⟨by decide, by decide, by decide, ?_⟩
  rw [hfused]
  simp only [Option.map_some', hA, hB "B" (by decide), hev]
  rfl

/-- C7 as stated fails when another teardown falls between the delete of `A` and its length
read: on `demoSession`, with `A` and `B` registered, `A` is deleted, then `B`, and the
length read of the teardown of `A` finds the client map empty and calls `saveDocument`. -/
theorem teardown_with_peers_counterexample :
    2 ≤ demoSession.doc.Clients.entries.length ∧ demoSession.doc.Clients.lookup "A" = some 0 ∧
      flushes demoSession = 0 ∧
      (runActs demoUnmarshal demoSession [Act.delete "A" 0, Act.delete "B" 1,
        Act.lengthCheck "A" false]).map
        (fun t' => (flushes t', t'.events.getLast?.map Event.isSave)) = some (1, some true) := by
  decide

/-! ## The initial sync -/

/-- The roster `sendDocumentData` collects, entry by entry: the id of every entry of the client
map, with the name and the selection of the record registered under it. -/
theorem clientList_eq (s : State) :
    clientList s = s.doc.Clients.entries.map (fun e =>
      ({ ClientName := ((s.conns[e.2]?).map (fun c => c.ClientName)).getD "",
         ClientID := e.1,
         SelectionActionData :=
          ((s.conns[e.2]?).map (fun c => c.SelectionActionData)).getD ISheetActionData.zero }
        : Clients)) := by
  unfold clientList
  apply List.map_congr_left
  intro e _
  simp only [clientNameOf, selectionOf]
  cases s.conns[e.2]? <;> rfl

/-- The ids of the roster are the keys of the client map, in its order. -/
theorem clientList_ids (s : State) :
    (clientList s).map (fun c => c.ClientID) = s.doc.Clients.keys := by
  simp [clientList, AList.keys, List.keys, List.map_map, Function.comp_def]

/-- The function `sendDocumentData` run without interruption is its first part, followed
by its second part when the first write reported no error. -/
theorem sendDocumentData_split (s : State) (clientID : String) (wsConn : Nat) :
    sendDocumentData s clientID wsConn false
        = sendDocumentData.clients (sendDocumentData.document s clientID wsConn) wsConn ∧
      sendDocumentData s clientID wsConn true = sendDocumentData.document s clientID wsConn :=
  ⟨rfl, rfl⟩

/-- The function `handleWebSocket` run without interruption is the registration followed by
the two parts of the initial sync, the second only when the first write reported no error. -/
theorem handleWebSocket_split (Unmarshal : String → MessageConfigType × Bool) (s : State)
    (clientID clientName : String) :
    runActs Unmarshal s [Act.register clientID clientName,
        Act.sendDocument clientID s.conns.length, Act.sendClients s.conns.length]
        = some (handleWebSocket s clientID clientName false) ∧
      runActs Unmarshal s [Act.register clientID clientName,
        Act.sendDocument clientID s.conns.length]
        = some (handleWebSocket s clientID clientName true) :=
  ⟨rfl, rfl⟩

/-- C8 (amended): for a registered client c, when the write of the first envelope reports no
error, `sendDocumentData` writes exactly two envelopes to the connection of c, in this
order: the envelope of type `document` with the current revision, the relay snapshot and
the id of c, then the envelope of type `clients` whose roster has, for every entry of the
client map, the id with the display name and last selection of the record registered under
it. The roster lists the registered ids, each once, c among them, and every entry carries
the name and selection of its record. When the first write reports an error, the function
returns after that one write. In both cases nothing else of the session changes. The
roster is collected under the lock after the first write: whenever that second part runs,
on whatever the session has become by then, it writes the one envelope of type `clients`
with the roster of the client map of that moment, which lists c as long as c is
registered. -/
theorem initial_sync (s : State) (clientID : String) (wsConn : Nat) (roster : List Clients)
    (hreg : s.doc.Clients.lookup clientID = some wsConn)
    (hroster : roster = s.doc.Clients.entries.map (fun e =>
      { ClientName := ((s.conns[e.2]?).map (fun c => c.ClientName)).getD "",
        ClientID := e.1,
        SelectionActionData :=
          ((s.conns[e.2]?).map (fun c => c.SelectionActionData)).getD ISheetActionData.zero })) :
    (sendDocumentData s clientID wsConn false).events = s.events ++
        [Event.WriteJSON wsConn
          { Type_ := "document", Revision := s.doc.Revision, Data := s.doc.Data,
            ClientName := "", ClientID := clientID, Clients := [] },
         Event.WriteJSON wsConn
          { Type_ := "clients", Revision := 0, Data := "", ClientName := "", ClientID := "",
            Clients := roster }] ∧
      roster.map (fun c => c.ClientID) = s.doc.Clients.keys ∧
      (roster.map (fun c => c.ClientID)).Nodup ∧
      clientID ∈ roster.map (fun c => c.ClientID) ∧
      (∀ k p conn, s.doc.Clients.lookup k = some p → s.conns[p]? = some conn →
        { ClientName := conn.ClientName, ClientID := k,
          SelectionActionData := conn.SelectionActionData } ∈ roster) ∧
      (∀ c ∈ roster, ∃ p, s.doc.Clients.lookup c.ClientID = some p ∧
        ∀ conn, s.conns[p]? = some conn →
          c.ClientName = conn.ClientName ∧ c.SelectionActionData = conn.SelectionActionData) ∧
      (sendDocumentData s clientID wsConn true).events = s.events ++
        [Event.WriteJSON wsConn
          { Type_ := "document", Revision := s.doc.Revision, Data := s.doc.Data,
            ClientName := "", ClientID := clientID, Clients := [] }] ∧
      (∀ writeErr, (sendDocumentData s clientID wsConn writeErr).doc = s.doc ∧
        (sendDocumentData s clientID wsConn writeErr).heap = s.heap ∧
        (sendDocumentData s clientID wsConn writeErr).conns = s.conns) ∧
      (sendDocumentData s clientID wsConn false
          = sendDocumentData.clients (sendDocumentData.document s clientID wsConn) wsConn ∧
        sendDocumentData s clientID wsConn true
          = sendDocumentData.document s clientID wsConn) ∧
      (∀ (t : State) (roster2 : List Clients),
        roster2 = t.doc.Clients.entries.map (fun e =>
          { ClientName := ((t.conns[e.2]?).map (fun c => c.ClientName)).getD "",
            ClientID := e.1,
            SelectionActionData :=
              ((t.conns[e.2]?).map (fun c => c.SelectionActionData)).getD
                ISheetActionData.zero }) →
        (sendDocumentData.clients t wsConn).events = t.events ++
            [Event.WriteJSON wsConn
              { Type_ := "clients", Revision := 0, Data := "", ClientName := "",
                ClientID := "", Clients := roster2 }] ∧
          roster2.map (fun c => c.ClientID) = t.doc.Clients.keys ∧
          (t.doc.Clients.lookup clientID = some wsConn →
            clientID ∈ roster2.map (fun c => c.ClientID)) ∧
          (sendDocumentData.clients t wsConn).doc = t.doc ∧
          (sendDocumentData.clients t wsConn).heap = t.heap ∧
          (sendDocumentData.clients t wsConn).conns = t.conns) := by
  subst hroster
  have hkeys : (s.doc.Clients.entries.map (fun e =>
      ({ ClientName := ((s.conns[e.2]?).map (fun c => c.ClientName)).getD "",
         ClientID := e.1,
         SelectionActionData :=
          ((s.conns[e.2]?).map (fun c => c.SelectionActionData)).getD ISheetActionData.zero }
        : Clients))).map (fun c => c.ClientID) = s.doc.Clients.keys := by
    simp [AList.keys, List.keys, List.map_map, Function.comp_def]
  have hlist := clientList_eq s
  refine ⟨?_, hkeys, ?_, ?_, ?_, ?_, ?_, ?_, sendDocumentData_split s clientID wsConn, ?_⟩
  · rw [← hlist]
    simp [sendDocumentData, documentMessage, clientsMessage, clientList]
  · rw [hkeys]
    exact s.doc.Clients.keys_nodup
  · rw [hkeys]
    exact AList.mem_keys.mp (AList.lookup_isSome.mp (by simp [hreg]))
  · intro k p conn hl hc
    refine List.mem_map.mpr ⟨⟨k, p⟩, AList.mem_lookup_iff.mp hl, ?_⟩
    simp [hc]
  · intro c hc
    obtain ⟨⟨k, p⟩, he, rfl⟩ := List.mem_map.mp hc
    refine ⟨p, AList.mem_lookup_iff.mpr he, ?_⟩
    intro conn hconn
    simp [hconn]
  · simp [sendDocumentData, documentMessage]
  · intro writeErr
    cases writeErr <;> simp [sendDocumentData]
  · intro t roster2 hroster2
    have hids : roster2.map (fun c => c.ClientID) = t.doc.Clients.keys := by
      rw [hroster2, ← clientList_eq t]
      exact clientList_ids t
    refine ⟨?_, hids, ?_, rfl, rfl, rfl⟩
    · rw [hroster2, ← clientList_eq t]
      rfl
    · intro hreg2
      rw [hids]
      exact AList.mem_keys.mp (AList.lookup_isSome.mp (by simp [hreg2]))

/-- The theorem `initial_sync` on `selectedSession` for client `B`: the `document` envelope,
then the roster with `B` and with `A` and its selection. -/
theorem initial_sync_witness :
    selectedSession.doc.Clients.lookup "B" = some 1 ∧
      (sendDocumentData selectedSession "B" 1 false).events =
        [Event.WriteJSON 1
          { Type_ := "document", Revision := 0, Data := "Initialize collaborative data",
            ClientName := "", ClientID := "B", Clients := [] },
         Event.WriteJSON 1
          { Type_ := "clients", Revision := 0, Data := "", ClientName := "", ClientID := "",
            Clients :=
              [{ ClientName := "Noah", ClientID := "B",
                 SelectionActionData := ISheetActionData.zero },
               { ClientName := "Emma", ClientID := "A", SelectionActionData := selectAction }] }] := by
  refine ⟨by decide, ?_⟩
  rw [(initial_sync selectedSession "B" 1 _ (by decide) rfl).1]
  rfl

/-- C8 as stated fails when the first write reports an error: for the registered client `B`
of `demoSession`, `sendDocumentData` then makes that one write only, and no `clients`
envelope follows. -/
theorem initial_sync_counterexample :
    demoSession.doc.Clients.lookup "B" = some 1 ∧
      (sendDocumentData demoSession "B" 1 true).events =
        [Event.WriteJSON 1
          { Type_ := "document", Revision := 0, Data := "Initialize collaborative data",
            ClientName := "", ClientID := "B", Clients := [] }] := by
  refine ⟨by decide, rfl⟩

/-- The roster `handleWebSocket` sends to a client it has just registered lists that client,
with its generated name and no selection yet. -/
theorem handleWebSocket_roster (s : State) (clientID clientName : String) :
    ∃ roster, (handleWebSocket s clientID clientName false).events = s.events ++
        [Event.WriteJSON s.conns.length
          { Type_ := "document", Revision := s.doc.Revision, Data := s.doc.Data,
            ClientName := "", ClientID := clientID, Clients := [] },
         Event.WriteJSON s.conns.length
          { Type_ := "clients", Revision := 0, Data := "", ClientName := "", ClientID := "",
            Clients := roster }] ∧
      { ClientName := clientName, ClientID := clientID,
        SelectionActionData := ISheetActionData.zero } ∈ roster := by
  refine ⟨clientList (register s clientID clientName).1, ?_, ?_⟩
  · simp [handleWebSocket, sendDocumentData, register, clientList, documentMessage,
      clientsMessage]
  · simp only [clientList, List.mem_map]
    refine ⟨⟨clientID, s.conns.length⟩, ?_, ?_⟩
    · simp [register, AList.insert_entries]
    · simp [register, clientNameOf, selectionOf]

/-- One iteration of the loop of `readLoop`: a message of type `data` goes to the data branch,
bytes that do not parse and messages of any other type change nothing. -/
theorem readLoop_step_message (Unmarshal : String → MessageConfigType × Bool) (s : State)
    (clientID : String) (wsConn : Nat) (dbErr : Bool) (m : MessageType) :
    (m.Type_ = "data" → readLoop.step Unmarshal s clientID wsConn dbErr (Received.message m)
        = readLoop.data Unmarshal s clientID wsConn m) ∧
      (m.Type_ ≠ "data" → readLoop.step Unmarshal s clientID wsConn dbErr (Received.message m)
        = some s) ∧
      readLoop.step Unmarshal s clientID wsConn dbErr Received.unparsable = some s := by
  refine ⟨fun h => ?_, fun h => ?_, rfl⟩
  · simp only [readLoop.step, if_pos h]
  · simp only [readLoop.step, if_neg h]

/-! ## The revision on selection updates -/

/-- C9 (amended): on a session whose revision r is an `int64` below the largest one, the data
branch completes on a data message whose action is `SetSelectionValueAction` and leaves
revision r + 1, as for every data message; no data message that is processed lowers the
revision; and registration and teardown leave it as it is. -/
theorem selection_update_increments_revision (Unmarshal : String → MessageConfigType × Bool)
    (s : State) (clientID : String) (wsConn : Nat) (message : MessageType)
    (hsel : (Unmarshal message.Data).1.ActionData.ActionName = "SetSelectionValueAction")
    (hlo : minInt64 ≤ s.doc.Revision) (hhi : s.doc.Revision < maxInt64) :
    (∃ s', readLoop.data Unmarshal s clientID wsConn message = some s' ∧
      s'.doc.Revision = s.doc.Revision + 1) ∧
    (∀ clientID' wsConn' message' s', readLoop.data Unmarshal s clientID' wsConn' message'
        = some s' → s.doc.Revision ≤ s'.doc.Revision) ∧
    (∀ step s', Step.run s step = some s' → s'.doc.Revision = s.doc.Revision) := by
  have hw : wrapInt64 (s.doc.Revision + 1) = s.doc.Revision + 1 :=
    wrapInt64_of_range (by omega) (by omega)
  refine ⟨?_, ?_, ?_⟩
  · have hne : (Unmarshal (withData s message.Data).doc.Data).1.ActionData.ActionName
        ≠ "SetRangeDataAction" := by
      show (Unmarshal message.Data).1.ActionData.ActionName ≠ "SetRangeDataAction"
      rw [hsel]
      decide
    obtain ⟨s2, h2⟩ := updateDocument_isSome_of_ne_setRange Unmarshal
      (withData s message.Data) wsConn hne
    have h2' : updateDocument Unmarshal
        { s with doc := { s.doc with Data := message.Data } } wsConn = some s2 := h2
    have hdoc := (updateDocument_doc h2').1
    refine ⟨_, by simp only [readLoop.data, h2', Option.bind_eq_bind, Option.some_bind]; rfl, ?_⟩
    simp only [hdoc, hw]
  · intro clientID' wsConn' message' s' hrun
    rw [readLoop_data_revision hrun, hw]
    omega
  · intro step s' hrun
    cases step with
    | register cid name werr =>
      simp only [Step.run, Option.some.injEq] at hrun
      subst hrun
      cases werr <;> rfl
    | readTeardown cid ws dbErr =>
      simp only [Step.run, readLoop_disconnect_eq] at hrun
      split at hrun
      · split at hrun
        · cases hrun
        · cases hrun; rfl
      · cases hrun; rfl
    | writeTeardown cid ws dbErr =>
      simp only [Step.run, writeLoop_close_eq, readLoop_disconnect_eq] at hrun
      split at hrun
      · split at hrun
        · cases hrun
        · cases hrun; rfl
      · cases hrun; rfl

/-- The theorem `selection_update_increments_revision` on `demoSession`: a selection update
from `A` completes and takes the revision from 0 to 1. -/
theorem selection_update_increments_revision_witness :
    (demoUnmarshal (dataMsg selectPayload).Data).1.ActionData.ActionName
        = "SetSelectionValueAction" ∧
      minInt64 ≤ demoSession.doc.Revision ∧ demoSession.doc.Revision < maxInt64 ∧
      (readLoop.data demoUnmarshal demoSession "A" 0 (dataMsg selectPayload)).map
        (fun s' => s'.doc.Revision) = some (demoSession.doc.Revision + 1) := by
  obtain ⟨s', hrun, hrev⟩ := (selection_update_increments_revision demoUnmarshal demoSession
    "A" 0 (dataMsg selectPayload) (by decide) (by decide) (by decide)).1
  refine ⟨by decide, by decide, by decide, ?_⟩
  rw [hrun]
  exact congrArg some hrev

/-- C9 as stated fails: on `demoSession`, at revision 0, a data message whose action is
`SetSelectionValueAction` leaves revision 1. -/
theorem selection_update_counterexample :
    (demoUnmarshal (dataMsg selectPayload).Data).1.ActionData.ActionName
        = "SetSelectionValueAction" ∧
      demoSession.doc.Revision = 0 ∧
      (readLoop.data demoUnmarshal demoSession "A" 0 (dataMsg selectPayload)).map
        (fun s' => s'.doc.Revision) = some 1 := by
  decide

/-! ## Payloads that fail to parse -/

/-- The function `updateDocument` never consults the error that `json.Unmarshal` reports: it
does the same whether or not one is reported. -/
theorem updateDocument_ignores_error (Unmarshal : String → MessageConfigType × Bool)
    (s : State) (wsConn : Nat) :
    updateDocument Unmarshal s wsConn
      = updateDocument (fun payload => ((Unmarshal payload).1, false)) s wsConn :=
  rfl

/-- A payload that is not JSON leaves the envelope at its zero value, whose action name
matches no case: nothing changes. -/
theorem updateDocument_zero_envelope (Unmarshal : String → MessageConfigType × Bool)
    (s : State) (wsConn : Nat) (hzero : (Unmarshal s.doc.Data).1 = MessageConfigType.zero) :
    updateDocument Unmarshal s wsConn = some s := by
  unfold updateDocument
  simp only [hzero, MessageConfigType.zero, ISheetActionData.zero]
  rfl

/-- C10, at the failing input: `json.Unmarshal` reports an error for `mistypedPayload`, and
`updateDocument` still writes the cell: `doc.DocsConfig.Sheets["S1"].CellData["0"]["0"]` is
absent before and 42 after. -/
theorem mistyped_payload_is_applied :
    (demoUnmarshal (withData demoSession mistypedPayload).doc.Data).2 = true ∧
      (withData demoSession mistypedPayload).readCell "S1" "0" "0" = none ∧
      (updateDocument demoUnmarshal (withData demoSession mistypedPayload) 0).map
        (fun s' => s'.readCell "S1" "0" "0") = some (some (Iface.number "42")) := by
  decide

/-! ## The shape of the session is kept -/

/-- A new session has a well-formed (empty) client map. -/
theorem ClientsWF_newDocument (docs_id : String) (docsConfig : IWorkbookConfig) (heap : Heap) :
    (newDocument docs_id docsConfig heap).ClientsWF := by
  constructor
  · exact List.nodup_nil
  · intro e he
    cases he

/-- A registration keeps the client map well formed. -/
theorem ClientsWF_register (s : State) (hwf : s.ClientsWF) (clientID clientName : String) :
    (register s clientID clientName).1.ClientsWF := by
  obtain ⟨hnd, hv⟩ := hwf
  have hsub : (List.kerase clientID s.doc.Clients.entries).Sublist s.doc.Clients.entries :=
    List.kerase_sublist _ _
  have hent : (register s clientID clientName).1.doc.Clients.entries
      = ⟨clientID, s.conns.length⟩ :: List.kerase clientID s.doc.Clients.entries := by
    simp [register, AList.insert_entries]
  have hlen : (register s clientID clientName).1.conns.length = s.conns.length + 1 := by
    simp [register]
  constructor
  · rw [hent, List.map_cons, List.nodup_cons]
    constructor
    · intro hmem
      obtain ⟨e, he, heq⟩ := List.mem_map.mp hmem
      have := hv e (hsub.subset he)
      simp only at heq
      omega
    · exact (hnd.sublist (hsub.map _))
  · intro e he
    rw [hent] at he
    rw [hlen]
    rcases List.mem_cons.mp he with rfl | he'
    · exact Nat.lt_succ_self _
    · exact Nat.lt_succ_of_lt (hv e (hsub.subset he'))

/-- A teardown keeps the client map well formed. -/
theorem ClientsWF_disconnect {s s' : State} (hwf : s.ClientsWF) {clientID : String}
    {wsConn : Nat} {dbErr : Bool}
    (hrun : readLoop.disconnect s clientID wsConn dbErr = some s') : s'.ClientsWF := by
  obtain ⟨hnd, hv⟩ := hwf
  have hsub : (s.doc.Clients.erase clientID).entries.Sublist s.doc.Clients.entries := by
    simp only [AList.erase]
    exact List.kerase_sublist _ _
  have key : s'.doc.Clients = s.doc.Clients.erase clientID ∧ s'.conns = s.conns := by
    rw [readLoop_disconnect_eq] at hrun
    split at hrun
    · split at hrun
      · cases hrun
      · cases hrun; exact ⟨rfl, rfl⟩
    · cases hrun; exact ⟨rfl, rfl⟩
  constructor
  · rw [key.1]
    exact hnd.sublist (hsub.map _)
  · rw [key.1, key.2]
    intro e he
    exact hv e (hsub.subset he)

/-- The shape of a session depends on its map objects and its config only. -/
theorem State.WF.congr {s s' : State} (hwf : s.WF) (hheap : s'.heap = s.heap)
    (hcfg : s'.doc.DocsConfig = s.doc.DocsConfig) : s'.WF := by
  unfold State.WF at hwf ⊢
  rw [hheap, hcfg]
  exact hwf

/-- The function `updateDocument`, when it completes, keeps a well-formed session well
formed. -/
theorem WF_updateDocument {Unmarshal : String → MessageConfigType × Bool} {s s' : State}
    {wsConn : Nat} (hwf : s.WF) (hrun : updateDocument Unmarshal s wsConn = some s') :
    s'.WF := by
  by_cases hname : (Unmarshal s.doc.Data).1.ActionData.ActionName = "SetRangeDataAction"
  · cases hl : s.doc.DocsConfig.Sheets.lookup (Unmarshal s.doc.Data).1.ActionData.SheetId with
    | none =>
      unfold Docs.updateDocument at hrun
      simp only [hname, if_true, hl, Option.getD_none] at hrun
      rcases Option.map_eq_some'.mp hrun with ⟨h', hh', rfl⟩
      have := updateCellData_nil rfl hh'
      subst this
      exact hwf
    | some sheet =>
      cases hcd : sheet.CellData with
      | none =>
        unfold Docs.updateDocument at hrun
        simp only [hname, if_true, hl, Option.getD_some] at hrun
        rcases Option.map_eq_some'.mp hrun with ⟨h', hh', rfl⟩
        have := updateCellData_nil hcd hh'
        subst this
        exact hwf
      | some g =>
        obtain ⟨s2, grid, _, hrun2, hdoc, _, _, post⟩ :=
          updateDocument_setRange Unmarshal s wsConn sheet g hwf hname hl hcd
        rw [hrun2] at hrun
        cases hrun
        exact hwf.setRange hdoc post
  · unfold Docs.updateDocument at hrun
    simp only [if_neg hname] at hrun
    split at hrun
    · cases hrun
      exact hwf.congr rfl rfl
    · cases hrun
      exact hwf

/-- Storing a selection keeps the number of connection records. -/
theorem length_updateSelction (conns : List wsConnection) (wsConn : Nat)
    (actionData : ISheetActionData) :
    (updateSelction conns wsConn actionData).length = conns.length := by
  unfold updateSelction
  cases conns[wsConn]? <;> simp

/-- The function `updateDocument` keeps the number of connection records. -/
theorem updateDocument_conns_length {Unmarshal : String → MessageConfigType × Bool}
    {s s' : State} {wsConn : Nat} (hrun : updateDocument Unmarshal s wsConn = some s') :
    s'.conns.length = s.conns.length := by
  unfold updateDocument at hrun
  simp only at hrun
  split at hrun
  · rcases Option.map_eq_some'.mp hrun with ⟨h', _, rfl⟩
    rfl
  · split at hrun
    · cases hrun
      exact length_updateSelction _ _ _
    · cases hrun
      rfl

/-- The data branch, when it completes, keeps the shape of the session. -/
theorem readLoop_data_WF {Unmarshal : String → MessageConfigType × Bool} {s s' : State}
    {clientID : String} {wsConn : Nat} {message : MessageType}
    (hrun : readLoop.data Unmarshal s clientID wsConn message = some s')
    (hwf : s.WF) (hcwf : s.ClientsWF) : s'.WF ∧ s'.ClientsWF := by
  obtain ⟨s2, h2, hdoc, hheap, hconns, _⟩ := readLoop_data_eq hrun
  have hwf1 : (withData s message.Data).WF := hwf.congr rfl rfl
  have hwf2 : s2.WF := WF_updateDocument hwf1 h2
  have hdoc2 := (updateDocument_doc h2).1
  have hlen := updateDocument_conns_length h2
  constructor
  · refine hwf2.congr hheap ?_
    rw [hdoc, hdoc2]
    rfl
  · unfold State.ClientsWF at hcwf ⊢
    rw [hdoc, hconns, hlen]
    exact hcwf

/-- Every step of the client map keeps the shape of the session. -/
theorem Step.run_WF {s s' : State} {st : Step} (hrun : st.run s = some s')
    (hwf : s.WF) (hcwf : s.ClientsWF) : s'.WF ∧ s'.ClientsWF := by
  cases st with
  | register cid name werr =>
    simp only [Step.run, Option.some.injEq] at hrun
    subst hrun
    obtain ⟨hd, hh, hc⟩ := sendDocumentData_frame (Docs.register s cid name).1 cid
      (Docs.register s cid name).2 werr
    constructor
    · refine hwf.congr ?_ ?_
      · rw [handleWebSocket, hh]; rfl
      · rw [handleWebSocket, hd]; rfl
    · have := ClientsWF_register s hcwf cid name
      unfold State.ClientsWF at this ⊢
      rw [handleWebSocket, hd, hc]
      exact this
  | readTeardown cid ws dbErr =>
    have hrun' : readLoop.disconnect s cid ws dbErr = some s' := hrun
    refine ⟨?_, ClientsWF_disconnect hcwf hrun'⟩
    rw [readLoop_disconnect_eq] at hrun'
    split at hrun'
    · split at hrun'
      · cases hrun'
      · cases hrun'; exact hwf.congr rfl rfl
    · cases hrun'; exact hwf.congr rfl rfl
  | writeTeardown cid ws dbErr =>
    have hrun' : readLoop.disconnect s cid ws dbErr = some s' := hrun
    refine ⟨?_, ClientsWF_disconnect hcwf hrun'⟩
    rw [readLoop_disconnect_eq] at hrun'
    split at hrun'
    · split at hrun'
      · cases hrun'
      · cases hrun'; exact hwf.congr rfl rfl
    · cases hrun'; exact hwf.congr rfl rfl

/-- Every session the hub can be in is well formed, store and client map. -/
theorem reachable_WF {Unmarshal : String → MessageConfigType × Bool} {s : State}
    (h : Reachable Unmarshal s) : s.WF ∧ s.ClientsWF := by
  induction h with
  | new docs_id docsConfig heap h => exact ⟨h, ClientsWF_newDocument _ _ _⟩
  | step s s' st _ hrun ih => exact Step.run_WF hrun ih.1 ih.2
  | data s s' clientID wsConn message _ hrun ih => exact readLoop_data_WF hrun ih.1 ih.2

/-- Every step at the grain of the critical sections keeps the shape of the session. -/
theorem act_run_WF {Unmarshal : String → MessageConfigType × Bool} {s s' : State} {a : Act}
    (hrun : a.run Unmarshal s = some s') (hwf : s.WF) (hcwf : s.ClientsWF) :
    s'.WF ∧ s'.ClientsWF := by
  cases a with
  | register cid name =>
    simp only [Act.run, Option.some.injEq] at hrun
    subst hrun
    exact ⟨hwf.congr rfl rfl, ClientsWF_register s hcwf cid name⟩
  | sendDocument cid ws =>
    simp only [Act.run, Option.some.injEq] at hrun
    subst hrun
    exact ⟨hwf.congr rfl rfl, hcwf⟩
  | sendClients ws =>
    simp only [Act.run, Option.some.injEq] at hrun
    subst hrun
    exact ⟨hwf.congr rfl rfl, hcwf⟩
  | mutate cid ws message =>
    simp only [Act.run] at hrun
    obtain ⟨s2, h2, hdoc, hheap, hconns, _⟩ := readLoop_data_mutate_eq hrun
    have hwf1 : (withData s message.Data).WF := hwf.congr rfl rfl
    have hwf2 : s2.WF := WF_updateDocument hwf1 h2
    have hdoc2 := (updateDocument_doc h2).1
    have hlen := updateDocument_conns_length h2
    constructor
    · refine hwf2.congr hheap ?_
      rw [hdoc, hdoc2]
      rfl
    · unfold State.ClientsWF at hcwf ⊢
      rw [hdoc, hconns, hlen]
      exact hcwf
  | broadcast cid ws =>
    simp only [Act.run, Option.some.injEq] at hrun
    subst hrun
    exact ⟨hwf.congr rfl rfl, hcwf⟩
  | delete cid ws =>
    simp only [Act.run, Option.some.injEq] at hrun
    subst hrun
    refine ⟨hwf.congr rfl rfl, ?_⟩
    obtain ⟨hnd, hv⟩ := hcwf
    have hsub : (s.doc.Clients.erase cid).entries.Sublist s.doc.Clients.entries := by
      simp only [AList.erase]
      exact List.kerase_sublist _ _
    constructor
    · exact hnd.sublist (hsub.map _)
    · intro e he
      exact hv e (hsub.subset he)
  | lengthCheck cid dbErr =>
    simp only [Act.run] at hrun
    by_cases h0 : s.doc.Clients.entries.length = 0
    · cases dbErr with
      | true =>
        rw [((readLoop_disconnect_check_eq s).2 h0).2] at hrun
        cases hrun
      | false =>
        rw [((readLoop_disconnect_check_eq s).2 h0).1] at hrun
        cases hrun
        exact ⟨hwf.congr rfl rfl, hcwf⟩
    · rw [(readLoop_disconnect_check_eq s).1 h0 dbErr] at hrun
      cases hrun
      exact ⟨hwf, hcwf⟩

/-- Every interleaving that completes keeps the shape of the session. -/
theorem runActs_WF (Unmarshal : String → MessageConfigType × Bool) (acts : List Act)
    (s s' : State) (hrun : runActs Unmarshal s acts = some s') (hwf : s.WF)
    (hcwf : s.ClientsWF) : s'.WF ∧ s'.ClientsWF := by
  induction acts generalizing s with
  | nil =>
    rw [runActs_nil] at hrun
    cases hrun
    exact ⟨hwf, hcwf⟩
  | cons a rest ih =>
    rw [runActs_cons] at hrun
    obtain ⟨s1, h1, hrest⟩ := Option.bind_eq_some.mp hrun
    obtain ⟨hwf1, hcwf1⟩ := act_run_WF h1 hwf hcwf
    exact ih s1 hrest hwf1 hcwf1

/-! ## Runtime failures of the cell-range write -/

/-- On a sheet without a grid, `updateCellData` panics as soon as `cellValue` has a row: the
first pass of the outer loop assigns the new row to an entry of the `nil` map. -/
theorem updateCellData_nil_panics (h : Heap) (sheet : IWorksheetConfig)
    (actionData : ISheetActionData) (hcd : sheet.CellData = none)
    (hne : actionData.CellValue.entries ≠ []) :
    updateCellData h sheet actionData = none := by
  unfold updateCellData
  cases hl : actionData.CellValue.entries with
  | nil => exact absurd hl hne
  | cons e t =>
    have hrow : updateCellData.row h sheet e.1 e.2 = none := by
      simp [updateCellData.row, hcd, Heap.gridIndex, Heap.gridAssign]
    simp [List.foldlM_cons, hrow]

/-- When `updateDocument` completes on a well-formed session: on every action other than the
cell-range write, on a cell-range write without any row, and on a cell-range write whose
sheet is in the config with an initialised grid; on a cell-range write with a row whose
sheet id is missing or whose sheet has a `nil` grid it panics. -/
theorem updateDocument_isSome_iff (Unmarshal : String → MessageConfigType × Bool) (s : State)
    (wsConn : Nat) (hwf : s.WF) :
    (updateDocument Unmarshal s wsConn).isSome = true ↔
      (Unmarshal s.doc.Data).1.ActionData.ActionName ≠ "SetRangeDataAction" ∨
      (Unmarshal s.doc.Data).1.ActionData.CellValue.entries = [] ∨
      ((s.doc.DocsConfig.Sheets.lookup (Unmarshal s.doc.Data).1.ActionData.SheetId).getD
        IWorksheetConfig.zero).CellData ≠ none := by
  constructor
  · intro hsome
    by_contra hcon
    simp only [not_or, not_not] at hcon
    obtain ⟨hname, hne, hcd⟩ := hcon
    have hpanic := updateCellData_nil_panics s.heap _ (Unmarshal s.doc.Data).1.ActionData hcd hne
    have : updateDocument Unmarshal s wsConn = none := by
      unfold updateDocument
      simp only [hname, if_true, hpanic, Option.map_none']
    rw [this] at hsome
    cases hsome
  · rintro (hname | hnil | hcd)
    · obtain ⟨s', hrun⟩ := updateDocument_isSome_of_ne_setRange Unmarshal s wsConn hname
      rw [hrun]; rfl
    · by_cases hname : (Unmarshal s.doc.Data).1.ActionData.ActionName = "SetRangeDataAction"
      · unfold updateDocument
        simp only [hname, if_true, updateCellData, hnil, List.foldlM_nil]
        rfl
      · obtain ⟨s', hrun⟩ := updateDocument_isSome_of_ne_setRange Unmarshal s wsConn hname
        rw [hrun]; rfl
    · by_cases hname : (Unmarshal s.doc.Data).1.ActionData.ActionName = "SetRangeDataAction"
      · cases hl : s.doc.DocsConfig.Sheets.lookup
            (Unmarshal s.doc.Data).1.ActionData.SheetId with
        | none =>
          rw [hl] at hcd
          exact absurd rfl hcd
        | some sheet =>
          rw [hl, Option.getD_some] at hcd
          obtain ⟨g, hg⟩ := Option.ne_none_iff_exists'.mp hcd
          obtain ⟨s', _, _, hrun, _⟩ :=
            updateDocument_setRange Unmarshal s wsConn sheet g hwf hname hl hg
          rw [hrun]; rfl
      · obtain ⟨s', hrun⟩ := updateDocument_isSome_of_ne_setRange Unmarshal s wsConn hname
        rw [hrun]; rfl

/-- C11, at the failing inputs: `editPayload` parses without error into a
`SetRangeDataAction` for sheet `S1` with the one row `"0"`. On `defaultSession`, whose config
has no sheet `S1`, and on `nilGridSession`, whose sheet `S1` has a `nil` grid,
`updateDocument` does not complete: it panics on the assignment to an entry of the `nil`
map, and with it the data branch of `readLoop`, which has no recover. -/
theorem set_range_panics_without_grid :
    (demoUnmarshal editPayload).2 = false ∧
      (demoUnmarshal editPayload).1.ActionData.CellValue.keys = ["0"] ∧
      defaultSession.doc.DocsConfig.Sheets.lookup "S1" = none ∧
      updateDocument demoUnmarshal (withData defaultSession editPayload) 0 = none ∧
      readLoop.data demoUnmarshal defaultSession "A" 0 (dataMsg editPayload) = none ∧
      (nilGridSession.doc.DocsConfig.Sheets.lookup "S1").map (fun sheet => sheet.CellData)
        = some none ∧
      updateDocument demoUnmarshal (withData nilGridSession editPayload) 0 = none ∧
      readLoop.data demoUnmarshal nilGridSession "A" 0 (dataMsg editPayload) = none := by
  refine ⟨by decide, by decide, by decide, rfl, rfl, by decide, rfl, rfl⟩

end Docs
